import Mathlib

/-!
Shallow embedding of the HDF Product Designer utility module (`util.py`):
the HDF5/JSON structural validator (`check_shape`, `check_type`,
`_check_atomic_type`, `numpy_dtype`, `value_check_factory`, `value_check`,
`validate_h5json`), the hierarchy walker (`order_objs`) and the identity
rewriter (`substitute_uuids`, `replace_uuid`, `scrub_value`).

Python dicts are modelled as structures of `Option` fields (a field is
`none` exactly when the key is absent).  Python exceptions are modelled by
the `Err` inductive; each constructor corresponds to one `raise` site and
carries the message text of that site (with the `%`-interpolated data
appended).  Scalar JSON payloads occurring in the checked documents are
modelled by `JVal` (integers, strings and nested lists); Python's
`isinstance` dispatch on scalars maps onto the `JVal` constructors.
Machine-integer behaviour of NumPy (`np.prod` on a default `int64` array)
is modelled explicitly with wraparound modulo `2^64`.
-/

namespace H5

/-- Python exceptions raised by `util.py`.  `kind` below recovers the
Python exception class; `unboundLocal` models the `UnboundLocalError`
raised when a local variable is read before assignment (not one of the
four documented exception classes). -/
inductive Err where
  | keyError (msg : String)
  | valueError (msg : String)
  | typeError (msg : String)
  | notImplementedError (msg : String)
  | unboundLocal (name : String)
deriving DecidableEq, Repr

/-- The Python exception class of an error. -/
def Err.kind : Err → String
  | .keyError _ => "KeyError"
  | .valueError _ => "ValueError"
  | .typeError _ => "TypeError"
  | .notImplementedError _ => "NotImplementedError"
  | .unboundLocal _ => "UnboundLocalError"

/-- Whether the error belongs to the closed taxonomy documented for
`validate_h5json` ("One of these exceptions is raised on errors: KeyError,
ValueError, TypeError, and NotImplementedError"). -/
def Err.documented (e : Err) : Bool :=
  e.kind == "KeyError" || e.kind == "ValueError" || e.kind == "TypeError" ||
    e.kind == "NotImplementedError"

/-- `numpy_dtype`'s conversion table from HDF5 predefined datatype names
(without the endianness suffix) to NumPy dtype codes. -/
def conv_map : List (String × String) :=
  [("H5T_STD_I8", "i1"), ("H5T_STD_U8", "u1"),
   ("H5T_STD_I16", "i2"), ("H5T_STD_U16", "u2"),
   ("H5T_STD_I32", "i4"), ("H5T_STD_U32", "u4"),
   ("H5T_STD_I64", "i8"), ("H5T_STD_U64", "u8"),
   ("H5T_IEEE_F32", "f4"), ("H5T_IEEE_F64", "f8")]

/-- `numpy_dtype(h5type)`: looks up `h5type[:-2]` (the name with its last
two characters removed) in `conv_map`; a missed lookup raises
`ValueError`. -/
def numpy_dtype (h5type : String) : Except Err String :=
  match conv_map.lookup (h5type.dropRight 2) with
  | some d => .ok d
  | none => .error (.valueError (h5type ++ ": Invalid predefined datatype"))

/-- `np.iinfo(dtype).min` for the integer dtype codes of `conv_map`. -/
def iinfo_min : String → Int
  | "i1" => -128
  | "i2" => -32768
  | "i4" => -2147483648
  | "i8" => -9223372036854775808
  | _ => 0

/-- `np.iinfo(dtype).max` for the integer dtype codes of `conv_map`. -/
def iinfo_max : String → Int
  | "i1" => 127
  | "u1" => 255
  | "i2" => 32767
  | "u2" => 65535
  | "i4" => 2147483647
  | "u4" => 4294967295
  | "i8" => 9223372036854775807
  | "u8" => 18446744073709551615
  | _ => 0

/-- `np.finfo(dtype).min` for `f4`/`f8` (exact integer values of the
largest finite float32/float64 magnitudes). -/
def finfo_min : String → Int
  | "f4" => -(2 ^ 128 - 2 ^ 104)
  | _ => -(2 ^ 1024 - 2 ^ 971)

/-- `np.finfo(dtype).max` for `f4`/`f8`. -/
def finfo_max : String → Int
  | "f4" => 2 ^ 128 - 2 ^ 104
  | _ => 2 ^ 1024 - 2 ^ 971

/-- `np.allclose([a], [v], rtol=1.e-8)` for integer inputs, with NumPy's
default `atol=1.e-8`: the test `|a - v| <= atol + rtol * |v|` over ℚ. -/
def npAllclose (a v : Int) : Bool :=
  |(a : ℚ) - (v : ℚ)| ≤ 1 / 100000000 + (1 / 100000000) * |(v : ℚ)|

mutual

/-- A scalar or nested-list JSON value. -/
inductive JVal where
  | int (i : Int)
  | str (s : String)
  | list (l : JList)
deriving DecidableEq

/-- A JSON list of values (a custom list type so that all recursions over
the nesting structure are structural). -/
inductive JList where
  | nil
  | cons (v : JVal) (rest : JList)
deriving DecidableEq

end

/-- Build a `JList` from a Lean list. -/
def JList.ofList : List JVal → JList
  | [] => .nil
  | v :: rest => .cons v (JList.ofList rest)

/-- Length of a `JList`. -/
def JList.len : JList → Nat
  | .nil => 0
  | .cons _ rest => 1 + rest.len

/-- `check_string` from `value_check_factory`: value must be a string. -/
def check_string : JVal → Except Err Unit
  | .str _ => .ok ()
  | _ => .error (.typeError "Value datatype error: Not a string.")

/-- `check_integer` from `value_check_factory`: value must be integral and
within the `iinfo` bounds of the resolved dtype. -/
def check_integer (base : String) (minval maxval : Int) : JVal → Except Err Unit
  | .int v =>
    if v < minval || v > maxval then
      .error (.valueError (toString v ++ ": Value out of range for " ++ base ++ " datatype"))
    else .ok ()
  | _ => .error (.typeError "Value datatype error: Not an integer.")

/-- `check_real` from `value_check_factory`: value must be a real number
(integers qualify; the model carries no float scalars) within the `finfo`
bounds, with the `np.allclose` boundary tolerance. -/
def check_real (base : String) (minval maxval : Int) : JVal → Except Err Unit
  | .int v =>
    if (v < minval && !npAllclose minval v) || (v > maxval && !npAllclose maxval v) then
      .error (.valueError (toString v ++ ": Value out of range for " ++ base ++ " datatype"))
    else .ok ()
  | _ => .error (.typeError "Value datatype error: Not a float.")

/-- `value_check(iter_, cond)`: walk a list of arbitrarily nested lists,
applying `cond` to every non-list element; the first failure aborts. -/
def value_check : JList → (JVal → Except Err Unit) → Except Err Unit
  | .nil, _ => .ok ()
  | .cons (.list l) rest, cond => do
    value_check l cond
    value_check rest cond
  | .cons v rest, cond => do
    cond v
    value_check rest cond

/-- `np.iinfo(np.uint64).max`. -/
def u64max : Int := 18446744073709551615

/-- `0xffffffff`. -/
def u32max : Int := 4294967295

/-- A `maxdims` entry: either an integer or a string (the unlimited
sentinel is the string `H5S_UNLIMITED`). -/
inductive MDim where
  | int (i : Int)
  | str (s : String)
deriving DecidableEq

/-- The `shape` dict of an object: optional `class`, `dims` and `maxdims`
keys (dimension entries are modelled as integers; `maxdims` entries may
also be strings). -/
structure ShapeJ where
  cls : Option String
  dims : Option (List Int)
  maxdims : Option (List MDim)
deriving DecidableEq

/-- `0 < rank <= 32`. -/
def rankOk (n : Nat) : Bool := 0 < n && n ≤ 32

/-- The per-entry loop over `shape['dims']` (`enumerate(shape['dims'], 1)`):
each dimension must lie in `[0, np.iinfo(np.uint64).max]`. -/
def checkDimsEntries : List Int → Nat → Except Err Unit
  | [], _ => .ok ()
  | d :: ds, i =>
    if d < 0 || d > u64max then
      .error (.valueError ("Dataspace dims: Dimension #" ++ Nat.repr i ++
        ": Size out of range: " ++ toString d))
    else checkDimsEntries ds (i + 1)

/-- The per-entry loop over `shape['maxdims']` (`enumerate(shape['maxdims'])`,
index from 0).  An integer entry must satisfy `0 < d < np.iinfo(np.uint64).max`
and only then is `shape['dims'][i] > shape['maxdims'][i]` tested; a string
entry must be the `H5S_UNLIMITED` sentinel.  (`dims.getD i 0` models
`shape['dims'][i]`; the call site has already established equal ranks, so
the default is never taken.) -/
def checkMaxdimsEntries (dims : List Int) : List MDim → Nat → Except Err Unit
  | [], _ => .ok ()
  | .int d :: ms, i =>
    if d ≤ 0 || d ≥ u64max then
      .error (.valueError ("Dataspace maxdims: Dimension size out of range: " ++ toString d))
    else if dims.getD i 0 > d then
      .error (.valueError ("Dimension #" ++ Nat.repr (i + 1) ++ ": dims greater than maxdims"))
    else checkMaxdimsEntries dims ms (i + 1)
  | .str s :: ms, i =>
    if s != "H5S_UNLIMITED" then
      .error (.valueError ("Dataspace maxdims: Unlimited dimension size value invalid: " ++ s))
    else checkMaxdimsEntries dims ms (i + 1)

/-- `check_shape(shape)`: validate HDF5/JSON shape information. -/
def check_shape (shape : ShapeJ) : Except Err Unit :=
  match shape.cls with
  | none => .error (.keyError "Dataspace class missing")
  | some c =>
    if !(c == "H5S_NULL" || c == "H5S_SCALAR" || c == "H5S_SIMPLE") then
      .error (.valueError (c ++ ": Invalid dataspace class"))
    else if c == "H5S_SIMPLE" then
      match shape.dims with
      | none => .error (.keyError "Missing dataspace dims information")
      | some ds =>
        if !rankOk ds.length then
          .error (.valueError ("Dataspace dims: Invalid rank: " ++ Nat.repr ds.length))
        else
          match shape.maxdims with
          | none => checkDimsEntries ds 1
          | some ms =>
            if !rankOk ms.length then
              .error (.valueError ("Dataspace maxdims: Invalid rank: " ++ Nat.repr ms.length))
            else do
              checkDimsEntries ds 1
              if ds.length ≠ ms.length then
                .error (.valueError "Dataspace dims and maxdims not of same rank")
              else checkMaxdimsEntries ds ms 0
    else
      if shape.dims.isSome || shape.maxdims.isSome then
        .error (.keyError ("dims and maxdims not allowed for " ++ c ++ " dataspace"))
      else .ok ()

/-- The `length` key of a string datatype: `H5T_VARIABLE` or an integer. -/
inductive LenJ where
  | int (i : Int)
  | str (s : String)
deriving DecidableEq

mutual

/-- A datatype dict: optional `class`, `base`, `charSet`, `strPad`,
`length`, `fields` and `dims` keys. -/
inductive TypeJ where
  | mk (cls : Option String) (base : Option BaseJ) (charSet : Option String)
      (strPad : Option String) (length : Option LenJ)
      (fields : Option FieldsJ) (dims : Option (List Int))

/-- The `base` key is either a string (predefined datatype name) or a
nested datatype dict. -/
inductive BaseJ where
  | str (s : String)
  | typ (t : TypeJ)

/-- The `fields` list of a compound datatype (a custom list type so that
recursion over it is structural). -/
inductive FieldsJ where
  | nil
  | cons (f : FieldJ) (rest : FieldsJ)

/-- A compound member dict: optional `name` and `type` keys. -/
inductive FieldJ where
  | mk (name : Option String) (type : Option TypeJ)

end

def TypeJ.cls : TypeJ → Option String
  | .mk c _ _ _ _ _ _ => c

def TypeJ.base : TypeJ → Option BaseJ
  | .mk _ b _ _ _ _ _ => b

def TypeJ.charSet : TypeJ → Option String
  | .mk _ _ cs _ _ _ _ => cs

def TypeJ.strPad : TypeJ → Option String
  | .mk _ _ _ sp _ _ _ => sp

def TypeJ.length : TypeJ → Option LenJ
  | .mk _ _ _ _ l _ _ => l

def TypeJ.fields : TypeJ → Option FieldsJ
  | .mk _ _ _ _ _ f _ => f

def TypeJ.dims : TypeJ → Option (List Int)
  | .mk _ _ _ _ _ _ d => d

def FieldJ.name : FieldJ → Option String
  | .mk n _ => n

def FieldJ.type : FieldJ → Option TypeJ
  | .mk _ t => t

def FieldsJ.length : FieldsJ → Nat
  | .nil => 0
  | .cons _ rest => 1 + rest.length

/-- `_check_atomic_type(t)`: helper for validating atomic datatypes.
For `H5T_INTEGER`/`H5T_FLOAT`, a `base` that is a nested dict would make
`numpy_dtype` slice a dict, a `TypeError` in Python. -/
def _check_atomic_type (t : TypeJ) : Except Err Unit :=
  match t.cls with
  | none => .error (.keyError "class")
  | some tcls =>
    if tcls == "H5T_STRING" then
      match t.charSet with
      | none => .error (.keyError "Missing charSet string information")
      | some cs =>
        match t.length with
        | none => .error (.keyError "Missing length string information")
        | some len =>
          match t.strPad with
          | none => .error (.keyError "Missing strPad string information")
          | some sp =>
            if !(cs == "H5T_CSET_ASCII" || cs == "H5T_CSET_UTF8") then
              .error (.valueError (cs ++ ": Invalid string character set"))
            else if !(sp == "H5T_STR_NULLTERM" || sp == "H5T_STR_NULLPAD" ||
                sp == "H5T_STR_SPACEPAD") then
              .error (.valueError (sp ++ ": Invalid string padding"))
            else
              match len with
              | .str s =>
                if s != "H5T_VARIABLE" then
                  .error (.valueError (s ++ ": Invalid string length value"))
                else .ok ()
              | .int i =>
                if i ≤ 0 then
                  .error (.valueError (toString i ++ ": Invalid string length value"))
                else .ok ()
    else if tcls == "H5T_INTEGER" || tcls == "H5T_FLOAT" then
      match t.base with
      | none => .error (.keyError "H5T_FLOAT/H5T_INTEGER predefined datatype missing")
      | some (.typ _) => .error (.typeError "unhashable type")
      | some (.str b) => do
        let _ ← numpy_dtype b
        .ok ()
    else if tcls == "H5T_REFERENCE" then
      match t.base with
      | none => .error (.keyError "Datatype reference base missing")
      | some (.typ _) => .error (.valueError "Invalid reference type")
      | some (.str b) =>
        if !(b == "H5T_STD_REF_OBJ" || b == "H5T_STD_REF_DSETREG") then
          .error (.valueError (b ++ ": Invalid reference type"))
        else .ok ()
    else
      .error (.notImplementedError (tcls ++ ": HDF5 datatype not supported yet"))

/-- First member name (in declaration order) occurring more than once. -/
def firstDup (all : List String) : List String → Option String
  | [] => none
  | n :: rest => if all.count n > 1 then some n else firstDup all rest

/-- The per-entry loop over `H5T_ARRAY` `dims` (`enumerate(t['dims'])`):
each entry must be a positive integer. -/
def checkArrayDims : List Int → Nat → Except Err Unit
  | [], _ => .ok ()
  | d :: ds, k =>
    if d ≤ 0 then
      .error (.valueError ("H5T_ARRAY dimension #" ++ Nat.repr k ++
        ": Dimension size must be positive: " ++ toString d))
    else checkArrayDims ds (k + 1)

mutual

/-- `check_type(t)`: validate HDF5/JSON datatype information.  A `base`
that is a string where a dict is required makes Python's recursive call
test `'class' not in t` on a string, which raises the same `KeyError`. -/
def check_type : TypeJ → Except Err Unit
  | .mk none _ _ _ _ _ _ => .error (.keyError "Datatype class missing")
  | .mk (some tcls) base cs sp len fields dims =>
    if tcls == "H5T_COMPOUND" then
      match fields with
      | none => .error (.keyError "Missing compound datatype member list")
      | some fs =>
        if fs.length == 0 then
          .error (.valueError "Compound datatype must have at least one member")
        else do
          let names ← check_fields fs
          match firstDup names names with
          | some f => .error (.valueError (f ++ ": Compound member name is not unique"))
          | none => .ok ()
    else if tcls == "H5T_VLEN" then
      match base with
      | none => .error (.keyError "H5T_VLEN datatype base missing")
      | some (.str _) => .error (.keyError "Datatype class missing")
      | some (.typ b) => check_type b
    else if tcls == "H5T_ARRAY" then
      match dims with
      | none => .error (.keyError "H5T_ARRAY dimensions missing")
      | some ds =>
        if !(0 < ds.length && ds.length ≤ 32) then
          .error (.valueError ("Invalid H5T_ARRAY rank: " ++ Nat.repr ds.length))
        else do
          checkArrayDims ds 0
          match base with
          | none => .error (.keyError "H5T_ARRAY datatype base missing")
          | some (.str _) => .error (.keyError "Datatype class missing")
          | some (.typ b) => check_type b
    else _check_atomic_type (.mk (some tcls) base cs sp len fields dims)

/-- The loop over compound members: per-member structural checks plus a
recursive datatype check, collecting the member names in order. -/
def check_fields : FieldsJ → Except Err (List String)
  | .nil => .ok []
  | .cons (.mk none _) _ => .error (.keyError "Missing compound member name")
  | .cons (.mk (some nm) ft) rest =>
    if nm.length == 0 then
      .error (.valueError "Empty name for a compound member")
    else
      match ft with
      | none => .error (.keyError ("Compound member " ++ nm ++ " missing datatype"))
      | some t => do
        check_type t
        let names ← check_fields rest
        .ok (nm :: names)

end

/-- The `layout` dict of `creationProperties`. -/
structure LayoutJ where
  cls : Option String
  dims : Option (List Int)
deriving DecidableEq

/-- A filter dict.  `parameters` models presence of the `parameters` key
(only presence is ever checked). -/
structure FilterJ where
  cls : Option String
  id : Option Int
  level : Option Int
  scaleType : Option String
  scaleOffset : Option Int
  parameters : Option Unit
deriving DecidableEq

/-- The `creationProperties` dict. -/
structure CP where
  nameCharEncoding : Option String
  layout : Option LayoutJ
  filters : Option (List FilterJ)
  fillValue : Option JVal
deriving DecidableEq

/-- An HDF5/JSON object description: the keys of `h5j` read by
`validate_h5json`. -/
structure H5Obj where
  shape : Option ShapeJ
  type : Option TypeJ
  value : Option JVal
  name : Option String
  creationProperties : Option CP

/-- `k in h5j` for the keys `validate_h5json` can be asked to require. -/
def hasKey (h : H5Obj) : String → Bool
  | "shape" => h.shape.isSome
  | "type" => h.type.isSome
  | "value" => h.value.isSome
  | "name" => h.name.isSome
  | "creationProperties" => h.creationProperties.isSome
  | _ => false

/-- The `reqd` loop of `validate_h5json`. -/
def checkReqd (h : H5Obj) : List String → Except Err Unit
  | [] => .ok ()
  | k :: ks =>
    if !hasKey h k then .error (.keyError (k ++ ": Required but missing"))
    else checkReqd h ks

mutual

/-- The shape `np.asarray(value).shape` reports for a nested list: the
length, extended by the common shape of the elements when every element
is a list of that same shape (ragged or mixed nestings yield an object
array whose shape stops at this level). -/
def npShapeL : JList → List Nat
  | .nil => [0]
  | .cons v rest =>
    match v with
    | .list l0 =>
      if sameListShape (npShapeL l0) rest then (1 + rest.len) :: npShapeL l0
      else [1 + rest.len]
    | _ => [1 + rest.len]

/-- Every element is a list whose `npShapeL` equals `s0`. -/
def sameListShape (s0 : List Nat) : JList → Bool
  | .nil => true
  | .cons (.list l) rest => (npShapeL l == s0) && sameListShape s0 rest
  | .cons _ _ => false

end

/-- `h5j['type']['class']` (each missing key raises `KeyError`). -/
def typeClassOf (h : H5Obj) : Except Err String :=
  match h.type with
  | none => .error (.keyError "type")
  | some t =>
    match t.cls with
    | none => .error (.keyError "class")
    | some c => .ok c

/-- `h5j['type'].get('base', None)` (the value handed to
`value_check_factory`; `none` both when `type` itself is absent — the
factory is only reached with `type` present — and when `base` is absent). -/
def baseArgOf (h : H5Obj) : Option BaseJ :=
  match h.type with
  | none => none
  | some t => t.base

/-- `value_check_factory(cls, base)`: produce the per-scalar conformance
predicate for a datatype class.  A `None` or dict `base` for the numeric
classes makes `numpy_dtype` slice a non-string, a `TypeError`. -/
def value_check_factory (cls : String) (base : Option BaseJ) :
    Except Err (JVal → Except Err Unit) :=
  if cls == "H5T_STRING" then .ok check_string
  else if cls == "H5T_INTEGER" then
    match base with
    | some (.str b) => do
      let dt ← numpy_dtype b
      .ok (check_integer b (iinfo_min dt) (iinfo_max dt))
    | _ => .error (.typeError "unsubscriptable object")
  else if cls == "H5T_FLOAT" then
    match base with
    | some (.str b) => do
      let dt ← numpy_dtype b
      .ok (check_real b (finfo_min dt) (finfo_max dt))
    | _ => .error (.typeError "unsubscriptable object")
  else if cls == "H5T_VLEN" || cls == "H5T_COMPOUND" then
    .ok (fun _ => .ok ())
  else
    .error (.notImplementedError (cls ++ ": HDF5 datatype class is not supported."))

/-- The `'value' in h5j` block of `validate_h5json`: the Python local
`val` is modelled by an `Option JList` that stays `none` when neither the
`H5S_SIMPLE` nor the `H5S_SCALAR` branch assigns it; reading it then is
Python's `UnboundLocalError`.  `cond` is built before `val` is read, so
factory errors surface first, exactly as in the source. -/
def checkValueField (h : H5Obj) : Except Err Unit :=
  match h.value with
  | none => .ok ()
  | some v =>
    match h.shape with
    | none => .error (.keyError "shape")
    | some sh =>
      match sh.cls with
      | none => .error (.keyError "class")
      | some c => do
        let val : Option JList ←
          if c == "H5S_SIMPLE" then
            match v with
            | .list l =>
              match sh.dims with
              | none => .error (.keyError "dims")
              | some ds =>
                if (npShapeL l).map (fun n => (n : Int)) ≠ ds then
                  .error (.valueError "Reported and actual shape mismatch")
                else .ok (some l)
            | _ => .error (.typeError ("Value(s) must be in a list for " ++ c ++ " dataspace"))
          else if c == "H5S_SCALAR" then
            match v with
            | .list _ => .error (.typeError ("Value cannot be in a list for " ++ c ++ " dataspace"))
            | w => .ok (some (JList.cons w .nil))
          else .ok none
        let tcls ← typeClassOf h
        let cond ← value_check_factory tcls (baseArgOf h)
        match val with
        | some l => value_check l cond
        | none => .error (.unboundLocal "val")

/-- The `'name' in h5j` block: non-empty and without the path separator. -/
def checkNameField (h : H5Obj) : Except Err Unit :=
  match h.name with
  | none => .ok ()
  | some nm =>
    if nm.length == 0 then .error (.valueError "HDF5 object name is an empty string")
    else if nm.data.contains '/' then
      .error (.valueError "HDF5 object name contains / character")
    else .ok ()

/-- The per-entry loop over chunk `dims`: each must be a positive integer
not exceeding `0xffffffff`. -/
def checkChunkEntries : List Int → Except Err Unit
  | [] => .ok ()
  | d :: ds =>
    if !(0 < d && d ≤ u32max) then
      .error (.valueError ("Chunk dimension value " ++ toString d ++
        " must be positive integer smaller than 2^32"))
    else checkChunkEntries ds

/-- Wrap an integer into a signed 64-bit value (two's complement). -/
def wrap64 (n : Int) : Int :=
  let m := n.emod 18446744073709551616
  if m < 9223372036854775808 then m else m - 18446744073709551616

/-- `np.prod` over a Python list of integers: NumPy converts the list to a
default `int64` array, so every multiplication wraps modulo `2^64`. -/
def npProdInt64 (ds : List Int) : Int :=
  ds.foldl (fun a b => wrap64 (a * b)) 1

/-- The chunk-versus-maximum-dims loop (`enumerate(max_dims)`): string
entries are skipped, a numeric effective maximum smaller than the chunk
dimension at the same axis raises.  (`cdims.getD n 0` models
`cp['layout']['dims'][n]`; the call site has already established equal
ranks, so the default is never taken.) -/
def chunkMaxCheck (cdims : List Int) : List MDim → Nat → Except Err Unit
  | [], _ => .ok ()
  | .str _ :: ms, n => chunkMaxCheck cdims ms (n + 1)
  | .int d :: ms, n =>
    if d < cdims.getD n 0 then
      .error (.valueError ("Chunking dim size " ++ toString (cdims.getD n 0) ++
        " greater than max size " ++ toString d))
    else chunkMaxCheck cdims ms (n + 1)

/-- The `'layout' in cp` block of `validate_h5json`. -/
def checkLayoutSection (h : H5Obj) (cp : CP) : Except Err Unit :=
  match cp.layout with
  | none => .ok ()
  | some lo =>
    match lo.cls with
    | none => .error (.keyError "Missing layout class")
    | some c =>
      if !(c == "H5D_CONTIGUOUS" || c == "H5D_CHUNKED" || c == "H5D_COMPACT") then
        .error (.valueError (c ++ ": Invalid layout class"))
      else if c == "H5D_CHUNKED" then
        match lo.dims with
        | none => .error (.keyError "Missing chunking dimensions")
        | some cdims => do
          checkChunkEntries cdims
          if npProdInt64 cdims > u32max then
            .error (.valueError "Number of elements in a chunk must be less than 2^32")
          else
            match h.shape with
            | none => .error (.keyError "shape")
            | some sh =>
              match sh.cls with
              | none => .error (.keyError "class")
              | some sc =>
                if sc == "H5S_SIMPLE" then
                  match sh.dims with
                  | none => .error (.keyError "dims")
                  | some ds =>
                    if ds.length ≠ cdims.length then
                      .error (.valueError "Chunk rank must be same as shape rank")
                    else
                      chunkMaxCheck cdims (sh.maxdims.getD (ds.map MDim.int)) 0
                else .error (.valueError (sc ++ ": This dataspace cannot be chunked"))
      else
        match lo.dims with
        | some _ => .error (.keyError ("dims not allowed for layout class " ++ c))
        | none => .ok ()

/-- `if f['scaleOffset'] < 0` (the `isinstance` test is carried by the
model's integer field). -/
def checkScaleOffsetValue (so : Int) : Except Err Unit :=
  if so < 0 then
    .error (.valueError (toString so ++ ": Scale offset value cannot be negative"))
  else .ok ()

/-- One iteration of the filter loop (`enumerate(fltrs)`): `class` and a
positive integer `id` are required, then per-class rules.  For
`H5Z_FILTER_SCALEOFFSET`, Python's short-circuit evaluation reads
`h5j['type']['class']` only in the `H5Z_SO_INT` and `H5Z_SO_FLOAT_DSCALE`
arms; `H5Z_SO_FLOAT_ESCALE` is rejected unconditionally. -/
def checkOneFilter (h : H5Obj) (n : Nat) (f : FilterJ) : Except Err Unit :=
  match f.cls with
  | none => .error (.keyError ("Filter #" ++ Nat.repr n ++ " class missing"))
  | some fcls =>
    match f.id with
    | none => .error (.keyError ("Filter #" ++ Nat.repr n ++ " id missing"))
    | some fid =>
      if fid ≤ 0 then
        .error (.valueError ("Filter #" ++ Nat.repr n ++ " id must be positive: " ++ toString fid))
      else if fcls == "H5Z_FILTER_DEFLATE" then
        match f.level with
        | none => .error (.keyError ("Filter #" ++ Nat.repr n ++ " missing deflate level"))
        | some lv =>
          if !(0 ≤ lv && lv ≤ 9) then
            .error (.valueError ("Filter #" ++ Nat.repr n ++ " deflate level out of range: " ++
              toString lv))
          else .ok ()
      else if fcls == "H5Z_FILTER_FLETCHER32" then .ok ()
      else if fcls == "H5Z_FILTER_NBIT" then .ok ()
      else if fcls == "H5Z_FILTER_SCALEOFFSET" then
        match f.scaleType with
        | none => .error (.keyError ("Filter #" ++ Nat.repr n ++ " missing scale type"))
        | some st =>
          if !(st == "H5Z_SO_FLOAT_DSCALE" || st == "H5Z_SO_FLOAT_ESCALE" ||
              st == "H5Z_SO_INT") then
            .error (.valueError ("Filter #" ++ Nat.repr n ++
              " invalid scale-offset filter type: " ++ st))
          else
            match f.scaleOffset with
            | none => .error (.keyError ("Filter #" ++ Nat.repr n ++ " missing scale offset"))
            | some so =>
              if st == "H5Z_SO_INT" then do
                let tc ← typeClassOf h
                if tc ≠ "H5T_INTEGER" then
                  .error (.valueError (st ++
                    ": Scale-offset filter type only allowed for integer datatypes"))
                else checkScaleOffsetValue so
              else if st == "H5Z_SO_FLOAT_DSCALE" then do
                let tc ← typeClassOf h
                if tc ≠ "H5T_FLOAT" then
                  .error (.valueError (st ++
                    ": Scale-offset filter type only allowed for floating point datatypes"))
                else checkScaleOffsetValue so
              else
                .error (.valueError (st ++ ": Scale-offset filter type not supported yet"))
      else if fcls == "H5Z_FILTER_SHUFFLE" then .ok ()
      else if fcls == "H5Z_FILTER_SZIP" then .ok ()
      else if fcls == "H5Z_FILTER_USER" then
        match f.parameters with
        | none => .error (.keyError ("Filter #" ++ Nat.repr n ++ " user filter missing parameters"))
        | some _ => .ok ()
      else .error (.valueError (fcls ++ ": Invalid filter class"))

/-- The filter loop. -/
def checkFiltersLoop (h : H5Obj) : Nat → List FilterJ → Except Err Unit
  | _, [] => .ok ()
  | n, f :: fs => do
    checkOneFilter h n f
    checkFiltersLoop h (n + 1) fs

/-- The `'filters' in cp` block: the chunked-layout requirement (checked
before the per-filter loop, and only when a `layout` key is present),
then the loop, then the ScaleOffset/Fletcher32 conflict check. -/
def checkFiltersSection (h : H5Obj) (cp : CP) : Except Err Unit :=
  match cp.filters with
  | none => .ok ()
  | some fl => do
    match cp.layout with
    | none => .ok ()
    | some lo =>
      match lo.cls with
      | none => .error (.keyError "class")
      | some c =>
        if c ≠ "H5D_CHUNKED" && fl.length ≠ 0 then
          .error (.valueError "Filters allowed only with chunked layout")
        else .ok ()
    checkFiltersLoop h 0 fl
    let classes := fl.map (fun f => f.cls.getD "")
    if classes.contains "H5Z_FILTER_SCALEOFFSET" &&
        classes.contains "H5Z_FILTER_FLETCHER32" then
      .error (.valueError ("Scale-offset compression filter cannot be combined " ++
        "with the Fletcher32 checksum filter"))
    else .ok ()

/-- The `'fillValue' in cp` block: run the fill value through the
conformance predicate of the object's datatype. -/
def checkFillValue (h : H5Obj) (cp : CP) : Except Err Unit :=
  match cp.fillValue with
  | none => .ok ()
  | some fv => do
    let tcls ← typeClassOf h
    let cond ← value_check_factory tcls (baseArgOf h)
    value_check (JList.cons fv .nil) cond

/-- The `'creationProperties' in h5j` block. -/
def checkCP (h : H5Obj) : Except Err Unit :=
  match h.creationProperties with
  | none => .ok ()
  | some cp => do
    match cp.nameCharEncoding with
    | none => .ok ()
    | some e =>
      if !(e == "H5T_CSET_UTF8" || e == "H5T_CSET_ASCII") then
        .error (.valueError (e ++ ": Invalid character encoding name"))
      else .ok ()
    checkLayoutSection h cp
    checkFiltersSection h cp
    checkFillValue h cp

/-- The checks of `validate_h5json` that precede the
`creationProperties` block. -/
def preCP (h : H5Obj) (reqd : List String) : Except Err Unit := do
  checkReqd h reqd
  match h.shape with
  | none => .ok ()
  | some sh => check_shape sh
  match h.type with
  | none => .ok ()
  | some t => check_type t
  checkValueField h
  checkNameField h

/-- `validate_h5json(h5j, reqd)`: validate HDF5 JSON content describing an
HDF5 object. -/
def validate_h5json (h : H5Obj) (reqd : List String) : Except Err Unit := do
  preCP h reqd
  checkCP h

/-! ### Hierarchy walker (`order_objs`) -/

/-- An `{'id': ..., 'path': ...}` record. -/
structure Entry where
  id : String
  path : String
deriving DecidableEq

/-- A group link dict (the keys read by `order_objs`). -/
structure Link where
  cls : String
  collection : String
  id : String
  title : String
deriving DecidableEq

/-- A group record: its `links` list (`.get('links', [])`: an absent key
is the empty list). -/
structure GrpInfo where
  links : List Link
deriving DecidableEq

/-- A design's HDF5/JSON: the `root` identifier and the `groups` mapping
(an association list keyed by identifier).  `order_objs` raises when the
`root` key is missing; the model covers designs that have one. -/
structure Design where
  root : String
  groups : List (String × GrpInfo)
deriving DecidableEq

/-- `posixpath.join(a, b)`: `b` if it is absolute, otherwise `a` and `b`
glued with exactly one separator (string tests on the character
sequence). -/
def ppJoin (a b : String) : String :=
  if b.data.take 1 = ['/'] then b
  else if a.data.getLast? = some '/' || a = "" then a ++ b
  else a ++ "/" ++ b

/-- `_get_hard_links(gid, collection)`: the hard links of group `gid`
targeting `collection`; a `gid` absent from `groups` is Python's
`KeyError` (modelled as `none`). -/
def getHardLinks (h5j : Design) (gid : String) (collection : String) :
    Option (List Link) :=
  match h5j.groups.lookup gid with
  | none => none
  | some gi =>
    some (gi.links.filter (fun l => l.cls == "H5L_TYPE_HARD" && l.collection == collection))

/-- `tree_walker`, in worklist form: visiting a group appends its dataset
children to `dsets` and its group children as one block to `grps`, then
recurses into the child groups in declaration order before the remaining
worklist (Python's recursion order).  `fuel` bounds the number of visits;
`none` models both fuel exhaustion (the source would still be running —
it has no cycle guard) and a missing-group `KeyError`. -/
def treeWalker (h5j : Design) :
    Nat → List Entry → List Entry × List Entry → Option (List Entry × List Entry)
  | _, [], st => some st
  | 0, _ :: _, _ => none
  | Nat.succ fuel, ginfo :: work, (grps, dsets) =>
    match getHardLinks h5j ginfo.id "datasets", getHardLinks h5j ginfo.id "groups" with
    | some dlinks, some glinks =>
      let dsets2 := dsets ++ dlinks.map (fun dl => Entry.mk dl.id (ppJoin ginfo.path dl.title))
      let chld := glinks.map (fun gl => Entry.mk gl.id (ppJoin ginfo.path gl.title))
      treeWalker h5j fuel (chld ++ work) (grps ++ chld, dsets2)
    | _, _ => none

/-- `order_objs(h5j, otype)`: the group records (root first) or the
dataset records accumulated by `tree_walker` starting from the root at
path `/`. -/
def order_objs (h5j : Design) (otype : String) (fuel : Nat) : Option (List Entry) :=
  let rootEntry : Entry := ⟨h5j.root, "/"⟩
  match treeWalker h5j fuel [rootEntry] ([rootEntry], []) with
  | some (grps, dsets) => some (if otype == "group" then grps else dsets)
  | none => none

/-- Modelled from the spec: the ordering clause of §4.5 — "depth-first,
pre-order, children visited in link-declaration order" over the hard
group links, each node listed before its descendants and a node's entire
subtree before its later siblings.  Used only to compare the walker's
actual output order against the specified one. -/
def dfsPreorder (h5j : Design) : Nat → List Entry → Option (List Entry)
  | _, [] => some []
  | 0, _ :: _ => none
  | Nat.succ fuel, e :: rest =>
    match getHardLinks h5j e.id "groups" with
    | none => none
    | some glinks =>
      let chld := glinks.map (fun gl => Entry.mk gl.id (ppJoin e.path gl.title))
      match dfsPreorder h5j fuel (chld ++ rest) with
      | none => none
      | some sub => some (e :: sub)

/-! ### Identity rewriter (`substitute_uuids`) -/

/-- A flat design object as output from the database (`db_to_h5json`):
the keys read by `substitute_uuids`.  Attribute values of the reserved
link-tracking attributes are lists, modelled by `JList`. -/
structure Obj where
  id : String
  pid : Option String
  objtype : String
  name : String
  value : Option JList
deriving DecidableEq

/-- The `sub_uuid` defaultdict: an insertion-ordered association list of
old-to-new identifiers plus the count of fresh identifiers generated so
far (the `n`-th generated identifier is `gen n`, modelling `uuid4()`). -/
structure Subst where
  map : List (String × String)
  ctr : Nat
deriving DecidableEq

/-- `sub_uuid[k]`: return the cached substitute, or generate, store and
return a fresh one. -/
def subLookup (gen : Nat → String) (k : String) (st : Subst) : String × Subst :=
  match st.map.lookup k with
  | some v => (v, st)
  | none => (gen st.ctr, ⟨st.map ++ [(k, gen st.ctr)], st.ctr + 1⟩)

/-- The character sequence of the `datasets/` cross-reference marker. -/
def dsMark : List Char := "datasets/".data

/-- `val.startswith('datasets/')`, on the string's character sequence
(Python string semantics): the first nine characters are the marker. -/
def startsWithDatasets (s : String) : Bool := s.data.take 9 = dsMark

/-- `val.split('/')`, as character lists. -/
def pySplit (s : String) : List (List Char) := s.data.splitOn '/'

/-- `'/'.join(parts)`, as character lists. -/
def pyJoin (parts : List (List Char)) : List Char := List.intercalate ['/'] parts

/-- `replace_uuid(val, new_val_src)`: for a string starting with
`datasets/`, split on `/`, map the second segment through `sub_uuid` and
rejoin; anything else is returned untouched.  The string operations are
modelled on the character sequence of the string, which is exactly
Python's view of it. -/
def replace_uuid (gen : Nat → String) : JVal → Subst → JVal × Subst
  | .str s, st =>
    if startsWithDatasets s then
      let parts := pySplit s
      let r := subLookup gen (String.mk (parts.getD 1 [])) st
      (.str (String.mk (pyJoin (parts.set 1 r.1.data))), r.2)
    else (.str s, st)
  | v, st => (v, st)

/-- `scrub_value(val, func)` with `func = replace_uuid`: rewrite every
non-list element of a nested list in place (modelled by returning the
rewritten list), threading the `sub_uuid` state left to right. -/
def scrub_value (gen : Nat → String) : JList → Subst → JList × Subst
  | .nil, st => (.nil, st)
  | .cons (.list l) rest, st =>
    let a := scrub_value gen l st
    let b := scrub_value gen rest a.2
    (.cons (.list a.1) b.1, b.2)
  | .cons v rest, st =>
    let a := replace_uuid gen v st
    let b := scrub_value gen rest a.2
    (.cons a.1 b.1, b.2)

/-- Whether `substitute_uuids` scrubs this object's value: an attribute
named `REFERENCE_LIST` or `DIMENSION_LIST`. -/
def isReservedAttr (o : Obj) : Bool :=
  o.objtype == "attribute" && (o.name == "REFERENCE_LIST" || o.name == "DIMENSION_LIST")

/-- The per-object body of the `substitute_uuids` loop: replace `id`,
then `_pid` if present, then scrub the value of a reserved attribute. -/
def processObj (gen : Nat → String) (o : Obj) (st : Subst) : Obj × Subst :=
  let a := subLookup gen o.id st
  let b :=
    match o.pid with
    | some p =>
      let r := subLookup gen p a.2
      (some r.1, r.2)
    | none => (none, a.2)
  if isReservedAttr o then
    match o.value with
    | some l =>
      let c := scrub_value gen l b.2
      (⟨a.1, b.1, o.objtype, o.name, some c.1⟩, c.2)
    | none => (⟨a.1, b.1, o.objtype, o.name, none⟩, b.2)
  else (⟨a.1, b.1, o.objtype, o.name, o.value⟩, b.2)

/-- The loop over `objs`. -/
def processList (gen : Nat → String) : List Obj → Subst → List Obj × Subst
  | [], st => ([], st)
  | o :: os, st =>
    let a := processObj gen o st
    let b := processList gen os a.2
    (a.1 :: b.1, b.2)

/-- The result of `substitute_uuids`: the final (in-place mutated) state
of the input object list, the returned new root identifier, and the final
`sub_uuid` state. -/
structure SubstResult where
  objs : List Obj
  newRoot : String
  state : Subst
deriving DecidableEq

/-- `substitute_uuids(objs, root_uuid)`: seed the root into `sub_uuid`,
rewrite every object in place, and return `sub_uuid[root_uuid]`.
`objs` in the result is the post-call state of the mutated input list. -/
def substitute_uuids (objs : List Obj) (root_uuid : String) (gen : Nat → String) :
    SubstResult :=
  let seed := subLookup gen root_uuid ⟨[], 0⟩
  let run := processList gen objs seed.2
  let fin := subLookup gen root_uuid run.2
  ⟨run.1, fin.1, fin.2⟩

/-! ### Pure description of the rewriting, and identifier occurrences

`substitute_uuids` threads the `sub_uuid` state through the whole object
list.  To state its specification we describe each rewritten object as a
pure function of the final old-to-new mapping, and collect the identifier
occurrence positions (object `id`, parent `_pid`, and the second segment
of every `datasets/<id>/...` string inside the values of the two reserved
link-tracking attributes). -/

/-- The function an association-list state denotes: cached substitute if
present, the identifier itself otherwise. -/
def mapOf (st : Subst) (x : String) : String := (st.map.lookup x).getD x

/-- `replace_uuid` as a pure function of an identifier mapping. -/
def replacePure (m : String → String) (v : JVal) : JVal :=
  match v with
  | .str s =>
    if startsWithDatasets s then
      let parts := pySplit s
      .str (String.mk (pyJoin (parts.set 1 (m (String.mk (parts.getD 1 []))).data)))
    else .str s
  | v => v

/-- `scrub_value` as a pure function of an identifier mapping. -/
def scrubPure (m : String → String) : JList → JList
  | .nil => .nil
  | .cons (.list l) rest => .cons (.list (scrubPure m l)) (scrubPure m rest)
  | .cons v rest => .cons (replacePure m v) (scrubPure m rest)

/-- The per-object effect of `substitute_uuids` as a pure function of an
identifier mapping. -/
def rewriteObj (m : String → String) (o : Obj) : Obj :=
  ⟨m o.id, o.pid.map m, o.objtype, o.name,
   if isReservedAttr o then o.value.map (scrubPure m) else o.value⟩

/-- The `datasets/<id>/...` identifier segments inside a value. -/
def refSegs : JList → List String
  | .nil => []
  | .cons (.list l) rest => refSegs l ++ refSegs rest
  | .cons (.str s) rest =>
    (if startsWithDatasets s then [String.mk ((pySplit s).getD 1 [])] else []) ++ refSegs rest
  | .cons _ rest => refSegs rest

/-- All identifier occurrences of one object: its `id`, its `_pid` if
present, and the reference segments of a reserved link-tracking
attribute's value. -/
def occIds (o : Obj) : List String :=
  o.id :: (o.pid.toList ++ (if isReservedAttr o then ((o.value.map refSegs).getD []) else []))

/-- The old identifiers of an input: the root plus every occurrence in
the object list. -/
def oldIds (objs : List Obj) (root : String) : List String :=
  root :: objs.flatMap occIds

/-! ### Concrete inputs used by the theorems -/

/-- A chunked dataset whose chunk has `2^64 - 2^33 + 1` elements: both
chunk dimensions are `2^32 - 1`, each individually legal. -/
def objC4 : H5Obj :=
  ⟨some ⟨some "H5S_SIMPLE", some [4294967295, 4294967295],
     some [.str "H5S_UNLIMITED", .str "H5S_UNLIMITED"]⟩,
   none, none, none,
   some ⟨none, some ⟨some "H5D_CHUNKED", some [4294967295, 4294967295]⟩, none, none⟩⟩

/-- Modelled from the spec: the "fixed enumeration of predefined sized
types (8/16/32/64-bit integers, 32/64-bit floats, each with an endianness
suffix)" — the 20 base names the spec's enumeration contains. -/
def predefinedBases : List String :=
  ["H5T_STD_I8LE", "H5T_STD_I8BE", "H5T_STD_U8LE", "H5T_STD_U8BE",
   "H5T_STD_I16LE", "H5T_STD_I16BE", "H5T_STD_U16LE", "H5T_STD_U16BE",
   "H5T_STD_I32LE", "H5T_STD_I32BE", "H5T_STD_U32LE", "H5T_STD_U32BE",
   "H5T_STD_I64LE", "H5T_STD_I64BE", "H5T_STD_U64LE", "H5T_STD_U64BE",
   "H5T_IEEE_F32LE", "H5T_IEEE_F32BE", "H5T_IEEE_F64LE", "H5T_IEEE_F64BE"]

/-- The chain design of scenario E: `/` → `/a` → `/a/b`, one hard link
each. -/
def chainD : Design :=
  ⟨"root",
   [("root", ⟨[⟨"H5L_TYPE_HARD", "groups", "a", "a"⟩]⟩),
    ("a", ⟨[⟨"H5L_TYPE_HARD", "groups", "b", "b"⟩]⟩),
    ("b", ⟨[]⟩)]⟩

/-- A branching design: root `r` has children `a` and `b` (declared in
that order), and `a` has child `c`. -/
def branchD : Design :=
  ⟨"r",
   [("r", ⟨[⟨"H5L_TYPE_HARD", "groups", "a", "a"⟩,
            ⟨"H5L_TYPE_HARD", "groups", "b", "b"⟩]⟩),
    ("a", ⟨[⟨"H5L_TYPE_HARD", "groups", "c", "c"⟩]⟩),
    ("b", ⟨[]⟩), ("c", ⟨[]⟩)]⟩

/-- An integer-typed object with a valid Null dataspace and a value. -/
def objC10 : H5Obj :=
  ⟨some ⟨some "H5S_NULL", none, none⟩,
   some (.mk (some "H5T_INTEGER") (some (.str "H5T_STD_I32LE")) none none none none none),
   some (.int 5), none, none⟩

/-! ### C4 -/

/-- C4: the claim says a chunk whose dimension product is not less than
`2^32` always fails with `ChunkTooLarge`.  The code computes the product
with `np.prod` on a default `int64` array: for chunk dims
`[2^32-1, 2^32-1]` (each individually legal, product `≥ 2^32`) the
product wraps to the negative value `-8589934591`, the `> 0xffffffff`
test is false, and the whole validation succeeds — the code contradicts
its own error message "Number of elements in a chunk must be less than
2^32". -/
theorem C4_chunk_product_wraps_int64 :
    validate_h5json objC4 [] = .ok () ∧
    npProdInt64 [4294967295, 4294967295] = -8589934591 ∧
    (4294967295 : Int) * 4294967295 ≥ 2 ^ 32 := by
  refine ⟨rfl, by decide, by decide⟩

/-! ### C5 -/

/-- C5 counterexample: `H5T_STD_I32XX` is not in the documented
enumeration of predefined sized types, yet atomic-datatype validation
accepts it — `numpy_dtype` drops the last two characters without
checking that they are an endianness suffix. -/
theorem C5_counterexample :
    _check_atomic_type (.mk (some "H5T_INTEGER") (some (.str "H5T_STD_I32XX"))
      none none none none none) = .ok () ∧
    "H5T_STD_I32XX" ∉ predefinedBases := by
  refine ⟨rfl, by decide⟩

/-- C5 amended: for an atomic `H5T_INTEGER`/`H5T_FLOAT` descriptor with a
string `base`, validation succeeds iff the base minus its last two
characters is one of the ten predefined prefixes of `conv_map` (the
suffix itself is never inspected); in particular every member of the
documented enumeration is accepted, and a base with an unknown prefix
fails (`UnknownBaseType`, a `ValueError`). -/
theorem C5_amended (cls b : String)
    (hcls : cls = "H5T_INTEGER" ∨ cls = "H5T_FLOAT") :
    (_check_atomic_type (.mk (some cls) (some (.str b)) none none none none none) = .ok () ↔
      (conv_map.lookup (b.dropRight 2)).isSome = true) ∧
    (b ∈ predefinedBases →
      _check_atomic_type (.mk (some cls) (some (.str b)) none none none none none) = .ok ()) := by
  have key : _check_atomic_type (.mk (some cls) (some (.str b)) none none none none none) =
      (numpy_dtype b).map (fun _ => ()) := by
    rcases hcls with h | h <;> subst h <;>
      simp [_check_atomic_type, TypeJ.cls, TypeJ.base, numpy_dtype] <;>
      cases conv_map.lookup (b.dropRight 2) <;> rfl
  constructor
  · rw [key]
    unfold numpy_dtype
    cases hl : conv_map.lookup (b.dropRight 2) <;> simp [Except.map]
  · intro hb
    rw [key]
    unfold numpy_dtype
    fin_cases hb <;> rfl

/-- Witness for C5 amended at `H5T_STD_I32LE`. -/
theorem C5_amended_witness :
    ((_check_atomic_type (.mk (some "H5T_INTEGER") (some (.str "H5T_STD_I32LE"))
        none none none none none) = .ok () ↔
      (conv_map.lookup ("H5T_STD_I32LE".dropRight 2)).isSome = true) ∧
    ("H5T_STD_I32LE" ∈ predefinedBases →
      _check_atomic_type (.mk (some "H5T_INTEGER") (some (.str "H5T_STD_I32LE"))
        none none none none none) = .ok ())) :=
  C5_amended "H5T_INTEGER" "H5T_STD_I32LE" (Or.inl rfl)

/-! ### C6 counterexample -/

/-- C6 counterexample: starting from the valid Simple dataspace
`dims=[5], maxdims=[7]`, changing the single maxdims entry to `0` — a
value below its dims counterpart — fails with the `DimensionOutOfRange`
error of the `maxdims` range test, not with `DimsExceedMaxdims` as the
claim states: the range test `d <= 0 or d >= 2^64-1` runs first. -/
theorem C6_counterexample :
    check_shape ⟨some "H5S_SIMPLE", some [5], some [.int 7]⟩ = .ok () ∧
    check_shape ⟨some "H5S_SIMPLE", some [5], some [.int 0]⟩ =
      .error (.valueError "Dataspace maxdims: Dimension size out of range: 0") ∧
    Err.valueError "Dataspace maxdims: Dimension size out of range: 0" ≠
      Err.valueError "Dimension #1: dims greater than maxdims" := by
  refine ⟨rfl, rfl, by decide⟩

/-! ### C3 counterexample -/

/-- C3 counterexample: on the branching design (root `r` with children
`a`, `b`; `a` with child `c`) the walker emits `r, a, b, c` — each
visited group's children are appended as one block before recursing —
while depth-first pre-order (the claimed order) is `r, a, c, b`. -/
theorem C3_counterexample :
    order_objs branchD "group" 10 =
      some [⟨"r", "/"⟩, ⟨"a", "/a"⟩, ⟨"b", "/b"⟩, ⟨"c", "/a/c"⟩] ∧
    dfsPreorder branchD 10 [⟨"r", "/"⟩] =
      some [⟨"r", "/"⟩, ⟨"a", "/a"⟩, ⟨"c", "/a/c"⟩, ⟨"b", "/b"⟩] ∧
    order_objs branchD "group" 10 ≠ dfsPreorder branchD 10 [⟨"r", "/"⟩] := by
  refine ⟨rfl, rfl, by decide⟩

/-! ### C10 -/

/-- C10: for any object with a valid Null dataspace and a `value`, whose
datatype passes its check and yields a conformance predicate, the
validator reaches the leaf-checking step with the Python local `val`
never assigned — neither the `H5S_SIMPLE` nor the `H5S_SCALAR` branch
ran — and raises an `UnboundLocalError`, which is outside the documented
closed error taxonomy. -/
theorem C10_null_shape_value_unbound (h : H5Obj) (v : JVal) (t : TypeJ) (tcls : String)
    (hsh : h.shape = some ⟨some "H5S_NULL", none, none⟩)
    (hv : h.value = some v)
    (ht : h.type = some t)
    (htchk : check_type t = .ok ())
    (hcls : t.cls = some tcls)
    (hfac : ∃ cond, value_check_factory tcls (baseArgOf h) = .ok cond) :
    validate_h5json h [] = .error (.unboundLocal "val") ∧
    Err.documented (.unboundLocal "val") = false := by
  obtain ⟨cond, hc⟩ := hfac
  have hts : typeClassOf h = .ok tcls := by
    simp [typeClassOf, ht, hcls]
  have hval : checkValueField h = .error (.unboundLocal "val") := by
    simp [checkValueField, hv, hsh, hts, hc, bind, Except.bind, pure, Except.pure]
  have hpre : preCP h [] = .error (.unboundLocal "val") := by
    simp [preCP, hsh, ht, checkReqd, check_shape, htchk, hval, bind, Except.bind]
  refine ⟨?_, rfl⟩
  simp [validate_h5json, hpre, bind, Except.bind]

/-- Witness for C10 at a concrete integer-typed object. -/
theorem C10_witness :
    validate_h5json objC10 [] = .error (.unboundLocal "val") ∧
    Err.documented (.unboundLocal "val") = false :=
  C10_null_shape_value_unbound objC10 (.int 5)
    (.mk (some "H5T_INTEGER") (some (.str "H5T_STD_I32LE")) none none none none none)
    "H5T_INTEGER" rfl rfl rfl rfl rfl ⟨_, rfl⟩

/-! ### C6 amended -/

/-- Validity of the `maxdims` entries from position `i` on, relative to
`dims`: a numeric entry is in the open range `(0, 2^64-1)` and at least
the corresponding dims entry; a string entry is the unlimited sentinel. -/
def MAligned (ds : List Int) : List MDim → Nat → Prop
  | [], _ => True
  | .int d :: ms, i => (0 < d ∧ d < u64max ∧ ds.getD i 0 ≤ d) ∧ MAligned ds ms (i + 1)
  | .str s :: ms, i => s = "H5S_UNLIMITED" ∧ MAligned ds ms (i + 1)

theorem checkDims_ok : ∀ (ds : List Int) (i : Nat),
    (∀ d ∈ ds, 0 ≤ d ∧ d ≤ u64max) → checkDimsEntries ds i = .ok ()
  | [], _, _ => rfl
  | d :: ds, i, h => by
    have hd := h d (List.mem_cons_self d ds)
    have hc : ¬ ((d < 0 || d > u64max) = true) := by
      simp only [Bool.or_eq_true, decide_eq_true_eq, not_or, not_lt]
      exact ⟨hd.1, hd.2⟩
    simp only [checkDimsEntries, hc, if_false]
    exact checkDims_ok ds (i + 1) (fun x hx => h x (List.mem_cons_of_mem d hx))

theorem checkMaxdims_ok : ∀ (ms : List MDim) (ds : List Int) (i : Nat),
    MAligned ds ms i → checkMaxdimsEntries ds ms i = .ok ()
  | [], _, _, _ => rfl
  | .int d :: ms, ds, i, h => by
    obtain ⟨⟨h1, h2, h3⟩, hrest⟩ := h
    have hc : ¬ ((decide (d ≤ 0) || decide (d ≥ u64max)) = true) := by
      simp only [Bool.or_eq_true, decide_eq_true_eq, not_or, not_le]
      exact ⟨h1, h2⟩
    simp only [checkMaxdimsEntries]
    rw [if_neg hc, if_neg (not_lt.mpr h3)]
    exact checkMaxdims_ok ms ds (i + 1) hrest
  | .str s :: ms, ds, i, h => by
    obtain ⟨h1, hrest⟩ := h
    have hc : ¬ ((s != "H5S_UNLIMITED") = true) := by
      simp [h1]
    simp only [checkMaxdimsEntries]
    rw [if_neg hc]
    exact checkMaxdims_ok ms ds (i + 1) hrest

theorem checkMaxdims_set_err : ∀ (ms : List MDim) (ds : List Int) (i t : Nat) (v : Int),
    t < ms.length → MAligned ds ms i → 0 < v → v < u64max → v < ds.getD (i + t) 0 →
    checkMaxdimsEntries ds (ms.set t (.int v)) i =
      .error (.valueError ("Dimension #" ++ Nat.repr (i + t + 1) ++
        ": dims greater than maxdims"))
  | [], _, _, t, _, ht, _, _, _, _ => absurd ht (by simp)
  | m :: ms, ds, i, 0, v, ht, h, hv1, hv2, hlt => by
    have hc : ¬ ((decide (v ≤ 0) || decide (v ≥ u64max)) = true) := by
      simp only [Bool.or_eq_true, decide_eq_true_eq, not_or, not_le]
      exact ⟨hv1, hv2⟩
    rw [List.set_cons_zero]
    simp only [checkMaxdimsEntries]
    rw [if_neg hc, if_pos (show ds.getD i 0 > v from hlt)]
  | m :: ms, ds, i, t + 1, v, ht, h, hv1, hv2, hlt => by
    have hlt' : v < ds.getD ((i + 1) + t) 0 := by
      have hi : (i + 1) + t = i + (t + 1) := by omega
      rw [hi]
      exact hlt
    have hmal : MAligned ds ms (i + 1) := by
      cases m with
      | int d => exact h.2
      | str s => exact h.2
    have htail : checkMaxdimsEntries ds (ms.set t (.int v)) (i + 1) =
        .error (.valueError ("Dimension #" ++ Nat.repr ((i + 1) + t + 1) ++
          ": dims greater than maxdims")) :=
      checkMaxdims_set_err ms ds (i + 1) t v (by simpa using ht) hmal hv1 hv2 hlt'
    have hidx : (i + 1) + t + 1 = i + (t + 1) + 1 := by omega
    rw [hidx] at htail
    rw [List.set_cons_succ]
    cases m with
    | int d =>
      obtain ⟨⟨h1, h2, h3⟩, _⟩ := h
      have hc : ¬ ((decide (d ≤ 0) || decide (d ≥ u64max)) = true) := by
        simp only [Bool.or_eq_true, decide_eq_true_eq, not_or, not_le]
        exact ⟨h1, h2⟩
      simp only [checkMaxdimsEntries]
      rw [if_neg hc, if_neg (not_lt.mpr h3)]
      exact htail
    | str s =>
      obtain ⟨h1, _⟩ := h
      have hc : ¬ ((s != "H5S_UNLIMITED") = true) := by
        simp [h1]
      simp only [checkMaxdimsEntries]
      rw [if_neg hc]
      exact htail

/-- C6 amended: for a Simple dataspace with equal-length `dims` and
`maxdims` (rank 1..32), `dims` entries in `[0, 2^64-1]` and every
`maxdims` entry either the unlimited sentinel or a numeric value in
`(0, 2^64-1)` that is at least its `dims` counterpart, validation
succeeds; and changing any single `maxdims` entry to a numeric value
that is positive, below `2^64-1` and below its `dims` counterpart makes
validation fail with the `DimsExceedMaxdims` error for that axis.  (The
counterexample forces the in-range provisos: a replacement value that is
non-positive or at least `2^64-1` fails with `DimensionOutOfRange`
instead, and a numeric `maxdims` entry outside `(0, 2^64-1)` fails even
when it is at least its `dims` counterpart.) -/
theorem C6_amended (ds : List Int) (ms : List MDim)
    (hrank : rankOk ds.length = true) (hlen : ds.length = ms.length)
    (hds : ∀ d ∈ ds, 0 ≤ d ∧ d ≤ u64max)
    (hms : MAligned ds ms 0) :
    check_shape ⟨some "H5S_SIMPLE", some ds, some ms⟩ = .ok () ∧
    (∀ t, t < ms.length → ∀ v : Int, 0 < v → v < u64max → v < ds.getD t 0 →
      check_shape ⟨some "H5S_SIMPLE", some ds, some (ms.set t (.int v))⟩ =
        .error (.valueError ("Dimension #" ++ Nat.repr (t + 1) ++
          ": dims greater than maxdims"))) := by
  constructor
  · simp only [check_shape, hrank, ← hlen, if_false, if_true]
    simp [checkDims_ok ds 1 hds, checkMaxdims_ok ms ds 0 hms, hlen,
      bind, Except.bind]
  · intro t ht v hv1 hv2 hlt
    have hset : checkMaxdimsEntries ds (ms.set t (.int v)) 0 =
        .error (.valueError ("Dimension #" ++ Nat.repr (0 + t + 1) ++
          ": dims greater than maxdims")) :=
      checkMaxdims_set_err ms ds 0 t v ht hms hv1 hv2 (by simpa using hlt)
    have hidx : 0 + t + 1 = t + 1 := by omega
    rw [hidx] at hset
    simp only [check_shape, hrank, List.length_set, ← hlen, if_false, if_true]
    simp [checkDims_ok ds 1 hds, hset, hlen, bind, Except.bind]

/-- Witness for C6 amended: `dims=[5], maxdims=[7]` validates; setting
the maxdims entry to `3 < 5` yields the `DimsExceedMaxdims` error. -/
theorem C6_amended_witness :
    check_shape ⟨some "H5S_SIMPLE", some [5], some [.int 7]⟩ = .ok () ∧
    check_shape ⟨some "H5S_SIMPLE", some [5], some [.int 3]⟩ =
      .error (.valueError ("Dimension #" ++ Nat.repr 1 ++
        ": dims greater than maxdims")) := by
  have h := C6_amended [5] [.int 7] rfl rfl (by decide)
    ⟨⟨by decide, by decide, by decide⟩, trivial⟩
  refine ⟨h.1, ?_⟩
  have h2 := h.2 0 (by decide) 3 (by decide) (by decide) (by decide)
  simpa using h2

/-! ### C7, C8, C9: the creationProperties checks -/

/-- The `nameCharEncoding` key, when present, is one of the two valid
encodings. -/
def encodingOk (cp : CP) : Prop :=
  match cp.nameCharEncoding with
  | none => True
  | some e => e = "H5T_CSET_UTF8" ∨ e = "H5T_CSET_ASCII"

theorem validate_eq_checkCP (h : H5Obj) (reqd : List String)
    (hpre : preCP h reqd = .ok ()) :
    validate_h5json h reqd = checkCP h := by
  simp [validate_h5json, hpre, bind, Except.bind]

theorem checkCP_decomp (h : H5Obj) (cp : CP)
    (hcp : h.creationProperties = some cp) (henc : encodingOk cp) :
    checkCP h = (do
      checkLayoutSection h cp
      checkFiltersSection h cp
      checkFillValue h cp) := by
  simp only [checkCP, hcp]
  unfold encodingOk at henc
  cases he : cp.nameCharEncoding with
  | none => simp [he, bind, Except.bind]
  | some e =>
    rw [he] at henc
    rcases henc with h1 | h1 <;> subst h1 <;> simp [he, bind, Except.bind]

/-- Per-axis admissibility of the chunk dimensions against the effective
maximum dimensions from position `n` on: a numeric maximum is at least
the chunk dimension at its axis, a string (unlimited) maximum is exempt. -/
def chunkFits (cdims : List Int) : List MDim → Nat → Prop
  | [], _ => True
  | .int d :: ms, n => cdims.getD n 0 ≤ d ∧ chunkFits cdims ms (n + 1)
  | .str _ :: ms, n => chunkFits cdims ms (n + 1)

theorem chunkMaxCheck_iff (cdims : List Int) : ∀ (ms : List MDim) (n : Nat),
    chunkMaxCheck cdims ms n = .ok () ↔ chunkFits cdims ms n
  | [], n => by simp [chunkMaxCheck, chunkFits]
  | .int d :: ms, n => by
    simp only [chunkMaxCheck, chunkFits]
    by_cases hd : d < cdims.getD n 0
    · rw [if_pos hd]
      constructor
      · intro hcontra
        exact Except.noConfusion hcontra
      · intro hcontra
        exact absurd hcontra.1 (not_le.mpr hd)
    · rw [if_neg hd]
      rw [chunkMaxCheck_iff cdims ms (n + 1)]
      constructor
      · intro hfit
        exact ⟨not_lt.mp hd, hfit⟩
      · intro hfit
        exact hfit.2
  | .str s :: ms, n => by
    simp only [chunkMaxCheck, chunkFits]
    exact chunkMaxCheck_iff cdims ms (n + 1)

/-- The dataset of scenario B: shape `dims=[2,3]`, no `maxdims`, chunked
layout with chunk `dims=[2,4]`. -/
def objC7B : H5Obj :=
  ⟨some ⟨some "H5S_SIMPLE", some [2, 3], none⟩, none, none, none,
   some ⟨none, some ⟨some "H5D_CHUNKED", some [2, 4]⟩, none, none⟩⟩

/-- C7: for a chunked dataset with a Simple dataspace whose other checks
pass, validation succeeds iff on every axis the chunk dimension does not
exceed the effective maximum dimension (`maxdims` entry when `maxdims`
is present, else the `dims` entry), string (unlimited) axes being
exempt; and scenario B — `dims=[2,3]`, no `maxdims`, chunk `[2,4]` —
fails with the chunk-versus-maximum error on the second axis. -/
theorem C7_chunk_vs_effective_max (h : H5Obj) (reqd : List String) (cp : CP)
    (sh : ShapeJ) (ds cdims : List Int)
    (hpre : preCP h reqd = .ok ())
    (hcp : h.creationProperties = some cp)
    (henc : encodingOk cp)
    (hlo : cp.layout = some ⟨some "H5D_CHUNKED", some cdims⟩)
    (hsh : h.shape = some sh) (hcls : sh.cls = some "H5S_SIMPLE") (hds : sh.dims = some ds)
    (hentries : checkChunkEntries cdims = .ok ())
    (hprod : npProdInt64 cdims ≤ u32max)
    (hrank : ds.length = cdims.length)
    (hfil : cp.filters = none) (hfill : cp.fillValue = none) :
    (validate_h5json h reqd = .ok () ↔
      chunkFits cdims (sh.maxdims.getD (ds.map MDim.int)) 0) ∧
    validate_h5json objC7B [] =
      .error (.valueError "Chunking dim size 4 greater than max size 3") := by
  constructor
  · have hlay : checkLayoutSection h cp =
        chunkMaxCheck cdims (sh.maxdims.getD (ds.map MDim.int)) 0 := by
      simp only [checkLayoutSection, hlo, hsh, hcls, hds]
      simp [hentries, not_lt.mpr hprod, hrank, bind, Except.bind]
    have hval : validate_h5json h reqd =
        chunkMaxCheck cdims (sh.maxdims.getD (ds.map MDim.int)) 0 := by
      rw [validate_eq_checkCP h reqd hpre, checkCP_decomp h cp hcp henc]
      simp only [checkFiltersSection, hfil, checkFillValue, hfill]
      rw [hlay]
      cases hmc : chunkMaxCheck cdims (sh.maxdims.getD (ds.map MDim.int)) 0 with
      | ok u =>
        obtain ⟨⟩ := u
        rfl
      | error e => rfl
    rw [hval]
    exact chunkMaxCheck_iff cdims (sh.maxdims.getD (ds.map MDim.int)) 0
  · rfl

/-- Witness for C7: a dataset with shape `dims=[2,3]` and chunk `[2,3]`,
where the instantiated equivalence and scenario B are both concrete. -/
theorem C7_witness :
    ((validate_h5json
        ⟨some ⟨some "H5S_SIMPLE", some [2, 3], none⟩, none, none, none,
         some ⟨none, some ⟨some "H5D_CHUNKED", some [2, 3]⟩, none, none⟩⟩ [] = .ok () ↔
      chunkFits [2, 3] ((none : Option (List MDim)).getD ([2, 3].map MDim.int)) 0) ∧
    validate_h5json objC7B [] =
      .error (.valueError "Chunking dim size 4 greater than max size 3")) :=
  C7_chunk_vs_effective_max
    ⟨some ⟨some "H5S_SIMPLE", some [2, 3], none⟩, none, none, none,
     some ⟨none, some ⟨some "H5D_CHUNKED", some [2, 3]⟩, none, none⟩⟩ []
    ⟨none, some ⟨some "H5D_CHUNKED", some [2, 3]⟩, none, none⟩
    ⟨some "H5S_SIMPLE", some [2, 3], none⟩ [2, 3] [2, 3]
    rfl rfl trivial rfl rfl rfl rfl rfl (by decide) rfl rfl rfl

/-- C8: a non-empty filter list under a present non-chunked layout always
fails with `FiltersRequireChunking`, before any per-filter validation. -/
theorem C8_filters_require_chunking (h : H5Obj) (reqd : List String) (cp : CP)
    (lo : LayoutJ) (c : String) (fl : List FilterJ)
    (hpre : preCP h reqd = .ok ())
    (hcp : h.creationProperties = some cp)
    (henc : encodingOk cp)
    (hlay : checkLayoutSection h cp = .ok ())
    (hlo : cp.layout = some lo) (hcls : lo.cls = some c)
    (hnc : c ≠ "H5D_CHUNKED")
    (hfl : cp.filters = some fl) (hne : fl ≠ []) :
    validate_h5json h reqd = .error (.valueError "Filters allowed only with chunked layout") := by
  have hlen : fl.length ≠ 0 := by
    simpa [List.length_eq_zero] using hne
  have hfs : checkFiltersSection h cp =
      .error (.valueError "Filters allowed only with chunked layout") := by
    simp only [checkFiltersSection, hfl, hlo, hcls]
    have hcond : (decide (c ≠ "H5D_CHUNKED") && decide (fl.length ≠ 0)) = true := by
      simp [hnc, hlen]
    rw [hcond]
    simp [bind, Except.bind]
  rw [validate_eq_checkCP h reqd hpre, checkCP_decomp h cp hcp henc]
  simp [hlay, hfs, bind, Except.bind]

/-- Witness for C8: a contiguous-layout object carrying one (arbitrary)
filter entry. -/
theorem C8_witness :
    validate_h5json
      ⟨none, none, none, none,
       some ⟨none, some ⟨some "H5D_CONTIGUOUS", none⟩,
         some [⟨some "H5Z_FILTER_DEFLATE", some 1, some 5, none, none, none⟩], none⟩⟩ [] =
      .error (.valueError "Filters allowed only with chunked layout") :=
  C8_filters_require_chunking
    ⟨none, none, none, none,
     some ⟨none, some ⟨some "H5D_CONTIGUOUS", none⟩,
       some [⟨some "H5Z_FILTER_DEFLATE", some 1, some 5, none, none, none⟩], none⟩⟩ []
    ⟨none, some ⟨some "H5D_CONTIGUOUS", none⟩,
      some [⟨some "H5Z_FILTER_DEFLATE", some 1, some 5, none, none, none⟩], none⟩
    ⟨some "H5D_CONTIGUOUS", none⟩ "H5D_CONTIGUOUS"
    [⟨some "H5Z_FILTER_DEFLATE", some 1, some 5, none, none, none⟩]
    rfl rfl trivial rfl rfl rfl (by decide) rfl (by decide)

/-- C9: for a ScaleOffset filter entry, the per-filter check never
accepts scale type `H5Z_SO_FLOAT_ESCALE` (rejected as unsupported),
accepts `H5Z_SO_INT` only when the object's datatype class is
`H5T_INTEGER`, accepts `H5Z_SO_FLOAT_DSCALE` only when it is
`H5T_FLOAT`, and accepts these two whenever the class matches and the
id and non-negative integer scale offset are well-formed. -/
theorem C9_scaleoffset (h : H5Obj) (n : Nat) (f : FilterJ) (st : String)
    (hcls : f.cls = some "H5Z_FILTER_SCALEOFFSET")
    (hst : f.scaleType = some st) :
    (st = "H5Z_SO_FLOAT_ESCALE" → checkOneFilter h n f ≠ .ok ()) ∧
    (st = "H5Z_SO_INT" → typeClassOf h ≠ .ok "H5T_INTEGER" →
      checkOneFilter h n f ≠ .ok ()) ∧
    (st = "H5Z_SO_FLOAT_DSCALE" → typeClassOf h ≠ .ok "H5T_FLOAT" →
      checkOneFilter h n f ≠ .ok ()) ∧
    (∀ fid so, f.id = some fid → 0 < fid → f.scaleOffset = some so → 0 ≤ so →
      (st = "H5Z_SO_INT" → typeClassOf h = .ok "H5T_INTEGER" →
        checkOneFilter h n f = .ok ()) ∧
      (st = "H5Z_SO_FLOAT_DSCALE" → typeClassOf h = .ok "H5T_FLOAT" →
        checkOneFilter h n f = .ok ())) := by
  refine ⟨?_, ?_, ?_, ?_⟩
  · intro hesc
    subst hesc
    simp only [checkOneFilter, hcls, hst]
    cases f.id with
    | none => simp
    | some fid =>
      by_cases hfid : fid ≤ 0
      · simp [hfid]
      · simp only [if_neg hfid]
        cases f.scaleOffset with
        | none => simp
        | some so => simp [bind, Except.bind]
  · intro hint htc
    subst hint
    simp only [checkOneFilter, hcls, hst]
    cases f.id with
    | none => simp
    | some fid =>
      by_cases hfid : fid ≤ 0
      · simp [hfid]
      · simp only [if_neg hfid]
        cases f.scaleOffset with
        | none => simp
        | some so =>
          simp only []
          cases hq : typeClassOf h with
          | error e => simp [hq, bind, Except.bind]
          | ok tc =>
            have htc2 : tc ≠ "H5T_INTEGER" := by
              intro hcontra
              exact htc (by rw [hq, hcontra])
            simp [hq, htc2, bind, Except.bind]
  · intro hds htc
    subst hds
    simp only [checkOneFilter, hcls, hst]
    cases f.id with
    | none => simp
    | some fid =>
      by_cases hfid : fid ≤ 0
      · simp [hfid]
      · simp only [if_neg hfid]
        cases f.scaleOffset with
        | none => simp
        | some so =>
          simp only []
          cases hq : typeClassOf h with
          | error e => simp [hq, bind, Except.bind]
          | ok tc =>
            have htc2 : tc ≠ "H5T_FLOAT" := by
              intro hcontra
              exact htc (by rw [hq, hcontra])
            simp [hq, htc2, bind, Except.bind]
  · intro fid so hid hpos hso hnn
    constructor
    · intro hint htc
      subst hint
      simp only [checkOneFilter, hcls, hst, hid, hso]
      simp [not_le.mpr hpos, htc, checkScaleOffsetValue, not_lt.mpr hnn, bind, Except.bind]
    · intro hds htc
      subst hds
      simp only [checkOneFilter, hcls, hst, hid, hso]
      simp [not_le.mpr hpos, htc, checkScaleOffsetValue, not_lt.mpr hnn, bind, Except.bind]

/-- An integer-typed object description. -/
def objIntType : H5Obj :=
  ⟨none, some (.mk (some "H5T_INTEGER") (some (.str "H5T_STD_I32LE")) none none none none none),
   none, none, none⟩

/-- Witness for C9: an int-scale ScaleOffset filter on an integer-typed
object is accepted; a float-escale one on the same object is rejected. -/
theorem C9_witness :
    checkOneFilter objIntType 0
      ⟨some "H5Z_FILTER_SCALEOFFSET", some 1, none, some "H5Z_SO_INT", some 0, none⟩ = .ok () ∧
    checkOneFilter objIntType 0
      ⟨some "H5Z_FILTER_SCALEOFFSET", some 1, none, some "H5Z_SO_FLOAT_ESCALE", some 0, none⟩ ≠
      .ok () := by
  constructor
  · exact ((C9_scaleoffset objIntType 0
      ⟨some "H5Z_FILTER_SCALEOFFSET", some 1, none, some "H5Z_SO_INT", some 0, none⟩
      "H5Z_SO_INT" rfl rfl).2.2.2 1 0 rfl (by decide) rfl (by decide)).1 rfl rfl
  · exact (C9_scaleoffset objIntType 0
      ⟨some "H5Z_FILTER_SCALEOFFSET", some 1, none, some "H5Z_SO_FLOAT_ESCALE", some 0, none⟩
      "H5Z_SO_FLOAT_ESCALE" rfl rfl).1 rfl

/-! ### C3 amended -/

theorem lookup_mem {α β : Type} [BEq α] [LawfulBEq α] :
    ∀ (l : List (α × β)) (k : α) (v : β), l.lookup k = some v → (k, v) ∈ l
  | [], _, _, h => by simp [List.lookup] at h
  | (a, b) :: es, k, v, h => by
    cases hk : k == a with
    | true =>
      have hk2 : k = a := eq_of_beq hk
      simp only [List.lookup, hk] at h
      obtain rfl : b = v := by
        simpa using h
      subst hk2
      exact List.mem_cons_self _ _
    | false =>
      simp only [List.lookup, hk] at h
      exact List.mem_cons_of_mem _ (lookup_mem es k v h)

/-- An entry the group listing may legitimately contain: the root, or the
target of a hard link of collection `groups` of some group of the design. -/
def GoodGroupEntry (h5j : Design) (e : Entry) : Prop :=
  e.id = h5j.root ∨ ∃ p ∈ h5j.groups, ∃ lk ∈ p.2.links,
    lk.cls = "H5L_TYPE_HARD" ∧ lk.collection = "groups" ∧ e.id = lk.id

theorem treeWalker_good (h5j : Design) :
    ∀ (fuel : Nat) (work grps dsets grps' dsets' : List Entry),
    treeWalker h5j fuel work (grps, dsets) = some (grps', dsets') →
    (∀ e ∈ work, GoodGroupEntry h5j e) → (∀ e ∈ grps, GoodGroupEntry h5j e) →
    ∀ e ∈ grps', GoodGroupEntry h5j e := by
  intro fuel
  induction fuel with
  | zero =>
    intro work grps dsets grps' dsets' heq hw hg
    cases work with
    | nil =>
      simp only [treeWalker, Option.some.injEq, Prod.mk.injEq] at heq
      rw [← heq.1]
      exact hg
    | cons a as => simp [treeWalker] at heq
  | succ fuel ih =>
    intro work grps dsets grps' dsets' heq hw hg
    cases work with
    | nil =>
      simp only [treeWalker, Option.some.injEq, Prod.mk.injEq] at heq
      rw [← heq.1]
      exact hg
    | cons ginfo rest =>
      cases hd : getHardLinks h5j ginfo.id "datasets" with
      | none => simp [treeWalker, hd] at heq
      | some dlinks =>
        cases hgl : getHardLinks h5j ginfo.id "groups" with
        | none => simp [treeWalker, hd, hgl] at heq
        | some glinks =>
          simp only [treeWalker, hd, hgl] at heq
          have hchld : ∀ e ∈ glinks.map
              (fun gl => Entry.mk gl.id (ppJoin ginfo.path gl.title)),
              GoodGroupEntry h5j e := by
            intro e he
            obtain ⟨gl, hglmem, hegl⟩ := List.mem_map.mp he
            unfold getHardLinks at hgl
            cases hlk : h5j.groups.lookup ginfo.id with
            | none => rw [hlk] at hgl; exact absurd hgl (by simp)
            | some gi =>
              rw [hlk] at hgl
              have hfil : glinks = gi.links.filter
                  (fun l => l.cls == "H5L_TYPE_HARD" && l.collection == "groups") := by
                simpa using hgl.symm
              rw [hfil] at hglmem
              obtain ⟨hmem, hp⟩ := List.mem_filter.mp hglmem
              have hp2 : gl.cls = "H5L_TYPE_HARD" ∧ gl.collection = "groups" := by
                simpa using hp
              refine Or.inr ⟨(ginfo.id, gi), lookup_mem h5j.groups ginfo.id gi hlk,
                gl, hmem, hp2.1, hp2.2, ?_⟩
              rw [← hegl]
          exact ih (glinks.map (fun gl => Entry.mk gl.id (ppJoin ginfo.path gl.title)) ++ rest)
            (grps ++ glinks.map (fun gl => Entry.mk gl.id (ppJoin ginfo.path gl.title)))
            _ _ _ heq
            (by
              intro e he
              rcases List.mem_append.mp he with h1 | h1
              · exact hchld e h1
              · exact hw e (List.mem_cons_of_mem _ h1))
            (by
              intro e he
              rcases List.mem_append.mp he with h1 | h1
              · exact hg e h1
              · exact hchld e h1)

/-- C3 amended: the Hierarchy Walker follows only hard links of the
requested collection — every entry of the group listing is the root or
the target of a hard `groups` link of some group of the design — but its
order is not depth-first pre-order: each visited group's child groups
are appended as one consecutive block (in link-declaration order) before
the walker recurses into them, so a group's grandchildren always follow
all of its children.  On the chain `/` → `/a` → `/a/b` the output is
exactly `[{root, /}, {a, /a}, {b, /a/b}]`, which coincides with
pre-order. -/
theorem C3_amended :
    (∀ (h5j : Design) (fuel : Nat) (l : List Entry),
      order_objs h5j "group" fuel = some l → ∀ e ∈ l, GoodGroupEntry h5j e) ∧
    order_objs chainD "group" 10 =
      some [⟨"root", "/"⟩, ⟨"a", "/a"⟩, ⟨"b", "/a/b"⟩] := by
  constructor
  · intro h5j fuel l heq e he
    simp only [order_objs] at heq
    cases htw : treeWalker h5j fuel [⟨h5j.root, "/"⟩] ([⟨h5j.root, "/"⟩], []) with
    | none => rw [htw] at heq; exact absurd heq (by simp)
    | some st =>
      obtain ⟨grps, dsets⟩ := st
      rw [htw] at heq
      have hl : grps = l := by simpa using heq
      subst hl
      have hroot : ∀ x ∈ [(⟨h5j.root, "/"⟩ : Entry)], GoodGroupEntry h5j x := by
        intro x hx
        have hx2 : x = ⟨h5j.root, "/"⟩ := by simpa using hx
        subst hx2
        exact Or.inl rfl
      exact treeWalker_good h5j fuel _ _ _ _ _ htw hroot hroot e he
  · rfl

/-- Witness for C3 amended: the entry `{c, /a/c}` emitted for the
branching design is certified by the provenance conjunct, and the chain
scenario is concrete. -/
theorem C3_amended_witness :
    GoodGroupEntry branchD ⟨"c", "/a/c"⟩ ∧
    order_objs chainD "group" 10 =
      some [⟨"root", "/"⟩, ⟨"a", "/a"⟩, ⟨"b", "/a/b"⟩] :=
  ⟨C3_amended.1 branchD 10
    [⟨"r", "/"⟩, ⟨"a", "/a"⟩, ⟨"b", "/b"⟩, ⟨"c", "/a/c"⟩] rfl
    ⟨"c", "/a/c"⟩ (by decide),
   C3_amended.2⟩

/-! ### C1/C2: state-extension lemmas for the `sub_uuid` mapping -/

theorem lookup_append_some {β : Type} :
    ∀ (l1 : List (String × β)) (l2 : List (String × β)) (k : String) (v : β),
    l1.lookup k = some v → (l1 ++ l2).lookup k = some v
  | [], _, _, _, h => by simp [List.lookup] at h
  | (a, b) :: es, l2, k, v, h => by
    cases hk : k == a with
    | true =>
      simp only [List.lookup, hk] at h ⊢
      exact h
    | false =>
      simp only [List.lookup, hk] at h ⊢
      exact lookup_append_some es l2 k v h

theorem lookup_append_none {β : Type} :
    ∀ (l1 : List (String × β)) (l2 : List (String × β)) (k : String),
    l1.lookup k = none → (l1 ++ l2).lookup k = l2.lookup k
  | [], _, _, _ => rfl
  | (a, b) :: es, l2, k, h => by
    cases hk : k == a with
    | true =>
      simp only [List.lookup, hk] at h
      exact Option.noConfusion h
    | false =>
      simp only [List.lookup, hk] at h ⊢
      exact lookup_append_none es l2 k h

/-- `st'` knows every binding `st` knows (with the same value). -/
def Extends (st st' : Subst) : Prop :=
  ∀ k v, st.map.lookup k = some v → st'.map.lookup k = some v

theorem extends_refl (st : Subst) : Extends st st := fun _ _ h => h

theorem extends_trans {a b c : Subst} (h1 : Extends a b) (h2 : Extends b c) :
    Extends a c := fun k v h => h2 k v (h1 k v h)

theorem extends_isSome {st st' : Subst} (h : Extends st st') (x : String)
    (hx : (st.map.lookup x).isSome = true) : (st'.map.lookup x).isSome = true := by
  cases hl : st.map.lookup x with
  | none => rw [hl] at hx; exact absurd hx (by simp)
  | some v => rw [h x v hl]; rfl

theorem mapOf_eq_of_lookup {st : Subst} {x v : String}
    (h : st.map.lookup x = some v) : mapOf st x = v := by
  simp [mapOf, h]

theorem subLookup_extends (gen : Nat → String) (k : String) (st : Subst) :
    Extends st (subLookup gen k st).2 := by
  unfold subLookup
  cases hl : st.map.lookup k with
  | some v => exact extends_refl st
  | none =>
    intro k' v' h
    exact lookup_append_some st.map [(k, gen st.ctr)] k' v' h

theorem subLookup_self (gen : Nat → String) (k : String) (st : Subst) :
    ((subLookup gen k st).2).map.lookup k = some (subLookup gen k st).1 := by
  unfold subLookup
  cases hl : st.map.lookup k with
  | some v => exact hl
  | none =>
    show (st.map ++ [(k, gen st.ctr)]).lookup k = some (gen st.ctr)
    rw [lookup_append_none st.map [(k, gen st.ctr)] k hl]
    simp [List.lookup]

theorem replace_extends (gen : Nat → String) (v : JVal) (st : Subst) :
    Extends st (replace_uuid gen v st).2 := by
  cases v with
  | int i => exact extends_refl st
  | list l => exact extends_refl st
  | str s =>
    simp only [replace_uuid]
    by_cases hs : startsWithDatasets s = true
    · rw [if_pos hs]
      exact subLookup_extends gen (String.mk ((pySplit s).getD 1 [])) st
    · rw [if_neg hs]
      exact extends_refl st

theorem scrub_extends (gen : Nat → String) :
    ∀ (l : JList) (st : Subst), Extends st (scrub_value gen l st).2
  | .nil, st => extends_refl st
  | .cons (.list l) rest, st => by
    simp only [scrub_value]
    exact extends_trans (scrub_extends gen l st)
      (scrub_extends gen rest (scrub_value gen l st).2)
  | .cons (.int i) rest, st => by
    simp only [scrub_value]
    exact extends_trans (replace_extends gen (.int i) st)
      (scrub_extends gen rest (replace_uuid gen (.int i) st).2)
  | .cons (.str s) rest, st => by
    simp only [scrub_value]
    exact extends_trans (replace_extends gen (.str s) st)
      (scrub_extends gen rest (replace_uuid gen (.str s) st).2)

theorem processObj_extends (gen : Nat → String) (o : Obj) (st : Subst) :
    Extends st (processObj gen o st).2 := by
  unfold processObj
  cases hp : o.pid with
  | none =>
    by_cases hr : isReservedAttr o = true
    · rw [if_pos hr]
      cases hv : o.value with
      | none => exact subLookup_extends gen o.id st
      | some l =>
        exact extends_trans (subLookup_extends gen o.id st)
          (scrub_extends gen l (subLookup gen o.id st).2)
    · rw [if_neg hr]
      exact subLookup_extends gen o.id st
  | some p =>
    have hbase : Extends st (subLookup gen p (subLookup gen o.id st).2).2 :=
      extends_trans (subLookup_extends gen o.id st)
        (subLookup_extends gen p (subLookup gen o.id st).2)
    by_cases hr : isReservedAttr o = true
    · rw [if_pos hr]
      cases hv : o.value with
      | none => exact hbase
      | some l =>
        exact extends_trans hbase
          (scrub_extends gen l (subLookup gen p (subLookup gen o.id st).2).2)
    · rw [if_neg hr]
      exact hbase

theorem processList_extends (gen : Nat → String) :
    ∀ (os : List Obj) (st : Subst), Extends st (processList gen os st).2
  | [], st => extends_refl st
  | o :: os, st => by
    simp only [processList]
    exact extends_trans (processObj_extends gen o st)
      (processList_extends gen os (processObj gen o st).2)

/-! ### C1/C2: stability — the threaded run equals the pure rewrite under
any extension of its final state -/

theorem replace_stable (gen : Nat → String) (v : JVal) (st st' : Subst)
    (hext : Extends (replace_uuid gen v st).2 st') :
    (replace_uuid gen v st).1 = replacePure (mapOf st') v := by
  cases v with
  | int i => rfl
  | list l => rfl
  | str s =>
    by_cases hs : startsWithDatasets s = true
    · have h2 : (replace_uuid gen (.str s) st).2 =
          (subLookup gen (String.mk ((pySplit s).getD 1 [])) st).2 := by
        simp only [replace_uuid]
        rw [if_pos hs]
      rw [h2] at hext
      have hself := subLookup_self gen (String.mk ((pySplit s).getD 1 [])) st
      have hm := mapOf_eq_of_lookup
        (hext (String.mk ((pySplit s).getD 1 []))
          (subLookup gen (String.mk ((pySplit s).getD 1 [])) st).1 hself)
      simp only [replace_uuid, replacePure]
      rw [if_pos hs, if_pos hs, hm]
    · simp only [replace_uuid, replacePure]
      rw [if_neg hs, if_neg hs]

theorem scrub_stable (gen : Nat → String) :
    ∀ (l : JList) (st st' : Subst), Extends (scrub_value gen l st).2 st' →
    (scrub_value gen l st).1 = scrubPure (mapOf st') l
  | .nil, _, _, _ => rfl
  | .cons (.list l) rest, st, st', hext => by
    have hextr : Extends (scrub_value gen rest (scrub_value gen l st).2).2 st' := by
      simpa only [scrub_value] using hext
    have hexta : Extends (scrub_value gen l st).2 st' :=
      extends_trans (scrub_extends gen rest (scrub_value gen l st).2) hextr
    simp only [scrub_value, scrubPure]
    rw [scrub_stable gen l st st' hexta,
      scrub_stable gen rest (scrub_value gen l st).2 st' hextr]
  | .cons (.int i) rest, st, st', hext => by
    have hextr : Extends (scrub_value gen rest (replace_uuid gen (.int i) st).2).2 st' := by
      simpa only [scrub_value] using hext
    have hexta : Extends (replace_uuid gen (.int i) st).2 st' :=
      extends_trans (scrub_extends gen rest (replace_uuid gen (.int i) st).2) hextr
    simp only [scrub_value, scrubPure]
    rw [replace_stable gen (.int i) st st' hexta,
      scrub_stable gen rest (replace_uuid gen (.int i) st).2 st' hextr]
  | .cons (.str s) rest, st, st', hext => by
    have hextr : Extends (scrub_value gen rest (replace_uuid gen (.str s) st).2).2 st' := by
      simpa only [scrub_value] using hext
    have hexta : Extends (replace_uuid gen (.str s) st).2 st' :=
      extends_trans (scrub_extends gen rest (replace_uuid gen (.str s) st).2) hextr
    simp only [scrub_value, scrubPure]
    rw [replace_stable gen (.str s) st st' hexta,
      scrub_stable gen rest (replace_uuid gen (.str s) st).2 st' hextr]

theorem processObj_stable (gen : Nat → String) (o : Obj) (st st' : Subst)
    (hext : Extends (processObj gen o st).2 st') :
    (processObj gen o st).1 = rewriteObj (mapOf st') o := by
  cases hp : o.pid with
  | none =>
    by_cases hr : isReservedAttr o = true
    · cases hv : o.value with
      | none =>
        have h2 : processObj gen o st =
            (⟨(subLookup gen o.id st).1, none, o.objtype, o.name, none⟩,
              (subLookup gen o.id st).2) := by
          simp only [processObj, hp, hv]
          rw [if_pos hr]
        rw [h2] at hext ⊢
        have hid := mapOf_eq_of_lookup
          (hext o.id (subLookup gen o.id st).1 (subLookup_self gen o.id st))
        simp [rewriteObj, hp, hv, hr, hid]
      | some l =>
        have h2 : processObj gen o st =
            (⟨(subLookup gen o.id st).1, none, o.objtype, o.name,
               some (scrub_value gen l (subLookup gen o.id st).2).1⟩,
              (scrub_value gen l (subLookup gen o.id st).2).2) := by
          simp only [processObj, hp, hv]
          rw [if_pos hr]
        rw [h2] at hext ⊢
        have hexta : Extends (subLookup gen o.id st).2 st' :=
          extends_trans (scrub_extends gen l (subLookup gen o.id st).2) hext
        have hid := mapOf_eq_of_lookup
          (hexta o.id (subLookup gen o.id st).1 (subLookup_self gen o.id st))
        have hscrub := scrub_stable gen l (subLookup gen o.id st).2 st' hext
        simp [rewriteObj, hp, hv, hr, hid, hscrub]
    · have h2 : processObj gen o st =
          (⟨(subLookup gen o.id st).1, none, o.objtype, o.name, o.value⟩,
            (subLookup gen o.id st).2) := by
        simp only [processObj, hp]
        rw [if_neg hr]
      rw [h2] at hext ⊢
      have hid := mapOf_eq_of_lookup
        (hext o.id (subLookup gen o.id st).1 (subLookup_self gen o.id st))
      simp [rewriteObj, hp, hr, hid]
  | some p =>
    by_cases hr : isReservedAttr o = true
    · cases hv : o.value with
      | none =>
        have h2 : processObj gen o st =
            (⟨(subLookup gen o.id st).1,
               some (subLookup gen p (subLookup gen o.id st).2).1,
               o.objtype, o.name, none⟩,
              (subLookup gen p (subLookup gen o.id st).2).2) := by
          simp only [processObj, hp, hv]
          rw [if_pos hr]
        rw [h2] at hext ⊢
        have hexta : Extends (subLookup gen o.id st).2 st' :=
          extends_trans (subLookup_extends gen p (subLookup gen o.id st).2) hext
        have hid := mapOf_eq_of_lookup
          (hexta o.id (subLookup gen o.id st).1 (subLookup_self gen o.id st))
        have hpid := mapOf_eq_of_lookup
          (hext p (subLookup gen p (subLookup gen o.id st).2).1
            (subLookup_self gen p (subLookup gen o.id st).2))
        simp [rewriteObj, hp, hv, hr, hid, hpid]
      | some l =>
        have h2 : processObj gen o st =
            (⟨(subLookup gen o.id st).1,
               some (subLookup gen p (subLookup gen o.id st).2).1,
               o.objtype, o.name,
               some (scrub_value gen l
                 (subLookup gen p (subLookup gen o.id st).2).2).1⟩,
              (scrub_value gen l
                (subLookup gen p (subLookup gen o.id st).2).2).2) := by
          simp only [processObj, hp, hv]
          rw [if_pos hr]
        rw [h2] at hext ⊢
        have hextb : Extends (subLookup gen p (subLookup gen o.id st).2).2 st' :=
          extends_trans
            (scrub_extends gen l (subLookup gen p (subLookup gen o.id st).2).2) hext
        have hexta : Extends (subLookup gen o.id st).2 st' :=
          extends_trans (subLookup_extends gen p (subLookup gen o.id st).2) hextb
        have hid := mapOf_eq_of_lookup
          (hexta o.id (subLookup gen o.id st).1 (subLookup_self gen o.id st))
        have hpid := mapOf_eq_of_lookup
          (hextb p (subLookup gen p (subLookup gen o.id st).2).1
            (subLookup_self gen p (subLookup gen o.id st).2))
        have hscrub := scrub_stable gen l
          (subLookup gen p (subLookup gen o.id st).2).2 st' hext
        simp [rewriteObj, hp, hv, hr, hid, hpid, hscrub]
    · have h2 : processObj gen o st =
          (⟨(subLookup gen o.id st).1,
             some (subLookup gen p (subLookup gen o.id st).2).1,
             o.objtype, o.name, o.value⟩,
            (subLookup gen p (subLookup gen o.id st).2).2) := by
        simp only [processObj, hp]
        rw [if_neg hr]
      rw [h2] at hext ⊢
      have hexta : Extends (subLookup gen o.id st).2 st' :=
        extends_trans (subLookup_extends gen p (subLookup gen o.id st).2) hext
      have hid := mapOf_eq_of_lookup
        (hexta o.id (subLookup gen o.id st).1 (subLookup_self gen o.id st))
      have hpid := mapOf_eq_of_lookup
        (hext p (subLookup gen p (subLookup gen o.id st).2).1
          (subLookup_self gen p (subLookup gen o.id st).2))
      simp [rewriteObj, hp, hr, hid, hpid]

theorem processList_stable (gen : Nat → String) :
    ∀ (os : List Obj) (st st' : Subst), Extends (processList gen os st).2 st' →
    (processList gen os st).1 = os.map (rewriteObj (mapOf st'))
  | [], _, _, _ => rfl
  | o :: os, st, st', hext => by
    have hextb : Extends (processList gen os (processObj gen o st).2).2 st' := by
      simpa only [processList] using hext
    have hexta : Extends (processObj gen o st).2 st' :=
      extends_trans (processList_extends gen os (processObj gen o st).2) hextb
    simp only [processList, List.map_cons]
    rw [processObj_stable gen o st st' hexta,
      processList_stable gen os (processObj gen o st).2 st' hextb]

/-! ### C1/C2: every occurrence is mapped, and every mapped value is a
generated identifier -/

theorem subLookup_isSome (gen : Nat → String) (k : String) (st : Subst) :
    (((subLookup gen k st).2).map.lookup k).isSome = true := by
  rw [subLookup_self]
  rfl

theorem replace_covers (gen : Nat → String) (s : String) (st : Subst)
    (hs : startsWithDatasets s = true) :
    (((replace_uuid gen (.str s) st).2).map.lookup
      (String.mk ((pySplit s).getD 1 []))).isSome = true := by
  have h2 : (replace_uuid gen (.str s) st).2 =
      (subLookup gen (String.mk ((pySplit s).getD 1 [])) st).2 := by
    simp only [replace_uuid]
    rw [if_pos hs]
  rw [h2]
  exact subLookup_isSome gen (String.mk ((pySplit s).getD 1 [])) st

theorem scrub_covers (gen : Nat → String) :
    ∀ (l : JList) (st : Subst) (x : String), x ∈ refSegs l →
    (((scrub_value gen l st).2).map.lookup x).isSome = true
  | .nil, _, _, hx => absurd hx (by simp [refSegs])
  | .cons (.list l) rest, st, x, hx => by
    simp only [refSegs] at hx
    simp only [scrub_value]
    rcases List.mem_append.mp hx with h1 | h1
    · exact extends_isSome
        (scrub_extends gen rest (scrub_value gen l st).2) x
        (scrub_covers gen l st x h1)
    · exact scrub_covers gen rest (scrub_value gen l st).2 x h1
  | .cons (.int i) rest, st, x, hx => by
    simp only [refSegs] at hx
    simp only [scrub_value]
    exact scrub_covers gen rest (replace_uuid gen (.int i) st).2 x hx
  | .cons (.str s) rest, st, x, hx => by
    simp only [refSegs] at hx
    simp only [scrub_value]
    rcases List.mem_append.mp hx with h1 | h1
    · by_cases hs : startsWithDatasets s = true
      · rw [if_pos hs] at h1
        have hx2 : x = String.mk ((pySplit s).getD 1 []) := by simpa using h1
        subst hx2
        exact extends_isSome
          (scrub_extends gen rest (replace_uuid gen (.str s) st).2) _
          (replace_covers gen s st hs)
      · rw [if_neg hs] at h1
        exact absurd h1 (by simp)
    · exact scrub_covers gen rest (replace_uuid gen (.str s) st).2 x h1

theorem processObj_covers (gen : Nat → String) (o : Obj) (st : Subst) :
    ∀ x ∈ occIds o, (((processObj gen o st).2).map.lookup x).isSome = true := by
  intro x hx
  simp only [occIds] at hx
  rcases List.mem_cons.mp hx with h1 | h1
  · -- x = o.id
    subst h1
    have hbase := subLookup_isSome gen o.id st
    unfold processObj
    cases hp : o.pid with
    | none =>
      by_cases hr : isReservedAttr o = true
      · rw [if_pos hr]
        cases hv : o.value with
        | none => exact hbase
        | some l =>
          exact extends_isSome (scrub_extends gen l (subLookup gen o.id st).2) _ hbase
      · rw [if_neg hr]
        exact hbase
    | some p =>
      have hbase2 := extends_isSome
        (subLookup_extends gen p (subLookup gen o.id st).2) _ hbase
      by_cases hr : isReservedAttr o = true
      · rw [if_pos hr]
        cases hv : o.value with
        | none => exact hbase2
        | some l =>
          exact extends_isSome
            (scrub_extends gen l (subLookup gen p (subLookup gen o.id st).2).2) _ hbase2
      · rw [if_neg hr]
        exact hbase2
  · rcases List.mem_append.mp h1 with h2 | h2
    · -- x ∈ o.pid.toList
      cases hp : o.pid with
      | none => rw [hp] at h2; exact absurd h2 (by simp)
      | some p =>
        rw [hp] at h2
        have hx2 : x = p := by simpa using h2
        subst hx2
        have hbase := subLookup_isSome gen x (subLookup gen o.id st).2
        unfold processObj
        rw [hp]
        by_cases hr : isReservedAttr o = true
        · rw [if_pos hr]
          cases hv : o.value with
          | none => exact hbase
          | some l =>
            exact extends_isSome
              (scrub_extends gen l (subLookup gen x (subLookup gen o.id st).2).2) _ hbase
        · rw [if_neg hr]
          exact hbase
    · -- x among the value's reference segments (reserved attribute)
      by_cases hr : isReservedAttr o = true
      · rw [if_pos hr] at h2
        cases hv : o.value with
        | none => rw [hv] at h2; exact absurd h2 (by simp)
        | some l =>
          rw [hv] at h2
          have h2' : x ∈ refSegs l := by simpa using h2
          unfold processObj
          rw [if_pos hr, hv]
          cases hp : o.pid with
          | none => exact scrub_covers gen l (subLookup gen o.id st).2 x h2'
          | some p =>
            exact scrub_covers gen l (subLookup gen p (subLookup gen o.id st).2).2 x h2'
      · rw [if_neg hr] at h2
        exact absurd h2 (by simp)

theorem processList_covers (gen : Nat → String) :
    ∀ (os : List Obj) (st : Subst) (x : String), x ∈ os.flatMap occIds →
    (((processList gen os st).2).map.lookup x).isSome = true
  | [], _, _, hx => absurd hx (by simp)
  | o :: os, st, x, hx => by
    simp only [List.flatMap_cons] at hx
    simp only [processList]
    rcases List.mem_append.mp hx with h1 | h1
    · exact extends_isSome (processList_extends gen os (processObj gen o st).2) x
        (processObj_covers gen o st x h1)
    · exact processList_covers gen os (processObj gen o st).2 x h1

/-- Every value stored in the mapping is a generated identifier. -/
def GenOnly (gen : Nat → String) (st : Subst) : Prop :=
  ∀ p ∈ st.map, ∃ n, p.2 = gen n

theorem subLookup_genOnly (gen : Nat → String) (k : String) (st : Subst)
    (h : GenOnly gen st) : GenOnly gen (subLookup gen k st).2 := by
  unfold subLookup
  cases hl : st.map.lookup k with
  | some v => exact h
  | none =>
    intro p hp
    rcases List.mem_append.mp hp with h1 | h1
    · exact h p h1
    · have hp2 : p = (k, gen st.ctr) := by simpa using h1
      exact ⟨st.ctr, by rw [hp2]⟩

theorem replace_genOnly (gen : Nat → String) (v : JVal) (st : Subst)
    (h : GenOnly gen st) : GenOnly gen (replace_uuid gen v st).2 := by
  cases v with
  | int i => exact h
  | list l => exact h
  | str s =>
    by_cases hs : startsWithDatasets s = true
    · have h2 : (replace_uuid gen (.str s) st).2 =
          (subLookup gen (String.mk ((pySplit s).getD 1 [])) st).2 := by
        simp only [replace_uuid]
        rw [if_pos hs]
      rw [h2]
      exact subLookup_genOnly gen (String.mk ((pySplit s).getD 1 [])) st h
    · have h2 : (replace_uuid gen (.str s) st).2 = st := by
        simp only [replace_uuid]
        rw [if_neg hs]
      rw [h2]
      exact h

theorem scrub_genOnly (gen : Nat → String) :
    ∀ (l : JList) (st : Subst), GenOnly gen st → GenOnly gen (scrub_value gen l st).2
  | .nil, _, h => h
  | .cons (.list l) rest, st, h => by
    simp only [scrub_value]
    exact scrub_genOnly gen rest (scrub_value gen l st).2 (scrub_genOnly gen l st h)
  | .cons (.int i) rest, st, h => by
    simp only [scrub_value]
    exact scrub_genOnly gen rest (replace_uuid gen (.int i) st).2
      (replace_genOnly gen (.int i) st h)
  | .cons (.str s) rest, st, h => by
    simp only [scrub_value]
    exact scrub_genOnly gen rest (replace_uuid gen (.str s) st).2
      (replace_genOnly gen (.str s) st h)

theorem processObj_genOnly (gen : Nat → String) (o : Obj) (st : Subst)
    (h : GenOnly gen st) : GenOnly gen (processObj gen o st).2 := by
  unfold processObj
  cases hp : o.pid with
  | none =>
    have hbase := subLookup_genOnly gen o.id st h
    by_cases hr : isReservedAttr o = true
    · rw [if_pos hr]
      cases hv : o.value with
      | none => exact hbase
      | some l => exact scrub_genOnly gen l (subLookup gen o.id st).2 hbase
    · rw [if_neg hr]
      exact hbase
  | some p =>
    have hbase := subLookup_genOnly gen p (subLookup gen o.id st).2
      (subLookup_genOnly gen o.id st h)
    by_cases hr : isReservedAttr o = true
    · rw [if_pos hr]
      cases hv : o.value with
      | none => exact hbase
      | some l =>
        exact scrub_genOnly gen l (subLookup gen p (subLookup gen o.id st).2).2 hbase
    · rw [if_neg hr]
      exact hbase

theorem processList_genOnly (gen : Nat → String) :
    ∀ (os : List Obj) (st : Subst), GenOnly gen st →
    GenOnly gen (processList gen os st).2
  | [], _, h => h
  | o :: os, st, h => by
    simp only [processList]
    exact processList_genOnly gen os (processObj gen o st).2
      (processObj_genOnly gen o st h)

theorem mapOf_gen_of_isSome {gen : Nat → String} {st : Subst} {x : String}
    (hg : GenOnly gen st) (hx : (st.map.lookup x).isSome = true) :
    ∃ n, mapOf st x = gen n := by
  cases hl : st.map.lookup x with
  | none => rw [hl] at hx; exact absurd hx (by simp)
  | some v =>
    obtain ⟨n, hn⟩ := hg (x, v) (lookup_mem st.map x v hl)
    exact ⟨n, by rw [mapOf_eq_of_lookup hl]; exact hn⟩

/-! ### C1/C2: parsing the rewritten `datasets/<id>/...` strings -/

theorem splitOnP_pieces (p : Char → Bool) :
    ∀ (xs : List Char), ∀ l ∈ xs.splitOnP p, ∀ c ∈ l, ¬ p c = true
  | [], l, hl, c, hc => by
    rw [List.splitOnP_nil] at hl
    have hl2 : l = [] := by simpa using hl
    subst hl2
    exact absurd hc (by simp)
  | a :: as, l, hl, c, hc => by
    rw [List.splitOnP_cons] at hl
    by_cases hp : p a = true
    · rw [if_pos hp] at hl
      rcases List.mem_cons.mp hl with h1 | h1
      · subst h1
        exact absurd hc (by simp)
      · exact splitOnP_pieces p as l h1 c hc
    · rw [if_neg hp] at hl
      cases hsp : as.splitOnP p with
      | nil => exact absurd hsp (List.splitOnP_ne_nil p as)
      | cons hd tl =>
        rw [hsp] at hl
        simp only [List.modifyHead] at hl
        rcases List.mem_cons.mp hl with h1 | h1
        · subst h1
          rcases List.mem_cons.mp hc with h2 | h2
          · subst h2
            exact hp
          · exact splitOnP_pieces p as hd (by rw [hsp]; exact List.mem_cons_self _ _) c h2
        · exact splitOnP_pieces p as l (by rw [hsp]; exact List.mem_cons_of_mem _ h1) c hc

theorem splitOn_slash_free :
    ∀ (xs : List Char), ∀ l ∈ xs.splitOn '/', '/' ∉ l := by
  intro xs l hl hc
  have := splitOnP_pieces (fun c => c == '/') xs l (by simpa [List.splitOn] using hl) '/' hc
  simp at this

theorem intercalate_cons₂ (sep a b : List Char) (l : List (List Char)) :
    List.intercalate sep (a :: b :: l) = a ++ sep ++ List.intercalate sep (b :: l) := by
  simp [List.intercalate, List.intersperse_cons_cons, List.append_assoc]

/-- Structure of a `datasets/...` string: its character sequence is the
prefix `datasets` followed by `/` and the rest, and its split on `/` is
`"datasets"`, the identifier segment, then the remaining segments. -/
theorem pySplit_structure (s : String) (hs : startsWithDatasets s = true) :
    ∃ q qs, pySplit s = "datasets".data :: q :: qs ∧ '/' ∉ q ∧
      (∀ l ∈ qs, '/' ∉ l) := by
  have hc : s.data.take 9 = dsMark := by
    simpa [startsWithDatasets] using hs
  have hdm : dsMark = "datasets".data ++ ['/'] := by decide
  have hsplitdata : s.data = "datasets".data ++ '/' :: s.data.drop 9 := by
    conv_lhs => rw [← List.take_append_drop 9 s.data]
    rw [hc, hdm]
    simp
  have hfirst : s.data.splitOn '/' =
      "datasets".data :: (s.data.drop 9).splitOn '/' := by
    conv_lhs => rw [hsplitdata]
    simp only [List.splitOn]
    exact List.splitOnP_first (fun b => b == '/') "datasets".data (by decide) '/'
      (by decide) (s.data.drop 9)
  cases hq : (s.data.drop 9).splitOn '/' with
  | nil => exact absurd hq (by simpa [List.splitOn] using List.splitOnP_ne_nil _ (s.data.drop 9))
  | cons q qs =>
    refine ⟨q, qs, ?_, ?_, ?_⟩
    · rw [pySplit, hfirst, hq]
    · exact splitOn_slash_free (s.data.drop 9) q (by rw [hq]; exact List.mem_cons_self _ _)
    · intro l hl
      exact splitOn_slash_free (s.data.drop 9) l (by rw [hq]; exact List.mem_cons_of_mem _ hl)

/-- Rewriting the identifier segment of a `datasets/...` string with a
slash-free replacement yields a string that still starts with
`datasets/` and whose identifier segment is exactly the replacement. -/
theorem pyJoin_set_parse (q new : List Char) (qs : List (List Char))
    (hq : '/' ∉ new) (hqs : ∀ l ∈ qs, '/' ∉ l) :
    startsWithDatasets (String.mk (pyJoin (("datasets".data :: q :: qs).set 1 new))) = true ∧
    pySplit (String.mk (pyJoin (("datasets".data :: q :: qs).set 1 new))) =
      "datasets".data :: new :: qs := by
  have hset : ("datasets".data :: q :: qs).set 1 new = "datasets".data :: new :: qs := by
    rw [List.set_cons_succ, List.set_cons_zero]
  rw [hset]
  have hjoin : pyJoin ("datasets".data :: new :: qs) =
      ("datasets".data ++ ['/']) ++ List.intercalate ['/'] (new :: qs) := by
    rw [pyJoin, intercalate_cons₂]
  constructor
  · rw [startsWithDatasets, hjoin]
    have : (("datasets".data ++ ['/']) ++
        List.intercalate ['/'] (new :: qs)).take 9 = "datasets".data ++ ['/'] :=
      List.take_left' (by decide)
    simp only [this]
    decide
  · rw [pySplit, hjoin]
    have hpieces : ∀ l ∈ "datasets".data :: new :: qs, '/' ∉ l := by
      intro l hl
      rcases List.mem_cons.mp hl with h1 | h1
      · subst h1; decide
      · rcases List.mem_cons.mp h1 with h2 | h2
        · subst h2; exact hq
        · exact hqs l h2
    have hsi := List.splitOn_intercalate ("datasets".data :: new :: qs) '/' hpieces (by simp)
    rw [intercalate_cons₂] at hsi
    exact hsi

theorem refSegs_scrubPure (m : String → String) :
    ∀ (l : JList), (∀ x ∈ refSegs l, '/' ∉ (m x).data) →
    refSegs (scrubPure m l) = (refSegs l).map m
  | .nil, _ => rfl
  | .cons (.list l) rest, hm => by
    simp only [scrubPure, refSegs, List.map_append]
    rw [refSegs_scrubPure m l (fun x hx => hm x (by simp [refSegs, hx])),
      refSegs_scrubPure m rest (fun x hx => hm x (by simp [refSegs, hx]))]
  | .cons (.int i) rest, hm => by
    simp only [scrubPure, replacePure, refSegs]
    exact refSegs_scrubPure m rest (fun x hx => hm x (by simpa [refSegs] using hx))
  | .cons (.str s) rest, hm => by
    by_cases hs : startsWithDatasets s = true
    · obtain ⟨q, qs, hsp, hq, hqs⟩ := pySplit_structure s hs
      have hseg : (pySplit s).getD 1 [] = q := by rw [hsp]; rfl
      have hmem : String.mk q ∈ refSegs (JList.cons (.str s) rest) := by
        simp only [refSegs]
        rw [if_pos hs, hseg]
        exact List.mem_append.mpr (Or.inl (List.mem_singleton.mpr rfl))
      have hmq : '/' ∉ (m (String.mk q)).data := hm (String.mk q) hmem
      have hparse := pyJoin_set_parse q (m (String.mk q)).data qs hmq hqs
      have hrepl : replacePure m (.str s) =
          .str (String.mk (pyJoin (("datasets".data :: q :: qs).set 1
            (m (String.mk q)).data))) := by
        simp only [replacePure]
        rw [if_pos hs, hseg, hsp]
      simp only [scrubPure, refSegs, hrepl]
      rw [if_pos hparse.1, hparse.2,
        refSegs_scrubPure m rest (fun x hx => hm x (by simp [refSegs, hx])),
        if_pos hs, hseg]
      simp
    · have hrepl : replacePure m (.str s) = .str s := by
        simp only [replacePure]
        rw [if_neg hs]
      simp only [scrubPure, refSegs, hrepl, hs]
      rw [refSegs_scrubPure m rest (fun x hx => hm x (by simp [refSegs, hs, hx]))]
      simp

theorem occIds_rewriteObj (m : String → String) (o : Obj)
    (hm : ∀ x ∈ occIds o, '/' ∉ (m x).data) :
    occIds (rewriteObj m o) = (occIds o).map m := by
  have hres : ∀ (i : String) (p : Option String) (v : Option JList),
      isReservedAttr ⟨i, p, o.objtype, o.name, v⟩ = isReservedAttr o :=
    fun _ _ _ => rfl
  by_cases hr : isReservedAttr o = true
  · cases hv : o.value with
    | none =>
      cases hp : o.pid with
      | none => simp [occIds, rewriteObj, hres, hr, hv, hp]
      | some p => simp [occIds, rewriteObj, hres, hr, hv, hp]
    | some l =>
      have hsub : ∀ x ∈ refSegs l, '/' ∉ (m x).data := by
        intro x hx
        refine hm x ?_
        simp only [occIds, hv, hr, if_true]
        exact List.mem_cons_of_mem _ (List.mem_append.mpr (Or.inr (by simpa using hx)))
      cases hp : o.pid with
      | none =>
        simp [occIds, rewriteObj, hres, hr, hv, hp, refSegs_scrubPure m l hsub]
      | some p =>
        simp [occIds, rewriteObj, hres, hr, hv, hp, refSegs_scrubPure m l hsub]
  · cases hp : o.pid with
    | none => simp [occIds, rewriteObj, hres, hr, hp]
    | some p => simp [occIds, rewriteObj, hres, hr, hp]

theorem map_eq_self_mem {α : Type} :
    ∀ (l : List α) (f : α → α), l.map f = l → ∀ x ∈ l, f x = x
  | [], _, _, x, hx => absurd hx (by simp)
  | a :: as, f, h, x, hx => by
    rw [List.map_cons] at h
    injection h with h1 h2
    rcases List.mem_cons.mp hx with h3 | h3
    · subst h3
      exact h1
    · exact map_eq_self_mem as f h2 x h3

/-- C2: `substitute_uuids` rewrites through one single mapping — the
final contents of the `sub_uuid` store: every object's `id`, `_pid` and
every `datasets/<id>/...` segment inside a reserved attribute's value is
replaced by the mapping's value at the old identifier (so equal old
identifiers always receive equal new identifiers), the returned root is
the mapping's value at the original root, and — when the generated
identifiers avoid the old ones and contain no `/` — no old identifier
occurs at any identifier position of the output, the returned root
included. -/
theorem C2_substitute_consistent (objs : List Obj) (root : String) (gen : Nat → String)
    (hfresh : ∀ n, gen n ∉ oldIds objs root)
    (hslash : ∀ n, '/' ∉ (gen n).data) :
    ((substitute_uuids objs root gen).objs =
      objs.map (rewriteObj (mapOf (substitute_uuids objs root gen).state))) ∧
    ((substitute_uuids objs root gen).newRoot =
      mapOf (substitute_uuids objs root gen).state root) ∧
    (∀ x ∈ (substitute_uuids objs root gen).objs.flatMap occIds,
      x ∉ oldIds objs root) ∧
    ((substitute_uuids objs root gen).newRoot ∉ oldIds objs root) := by
  have hgen0 : GenOnly gen (⟨[], 0⟩ : Subst) := fun p hp => absurd hp (by simp)
  have hextfin : Extends (processList gen objs (subLookup gen root ⟨[], 0⟩).2).2
      (subLookup gen root (processList gen objs (subLookup gen root ⟨[], 0⟩).2).2).2 :=
    subLookup_extends gen root _
  have hobjs : (substitute_uuids objs root gen).objs =
      objs.map (rewriteObj (mapOf (substitute_uuids objs root gen).state)) :=
    processList_stable gen objs (subLookup gen root ⟨[], 0⟩).2 _ hextfin
  have hroot : (substitute_uuids objs root gen).newRoot =
      mapOf (substitute_uuids objs root gen).state root :=
    (mapOf_eq_of_lookup (subLookup_self gen root
      (processList gen objs (subLookup gen root ⟨[], 0⟩).2).2)).symm
  have hgenfin : GenOnly gen (substitute_uuids objs root gen).state :=
    subLookup_genOnly gen root _
      (processList_genOnly gen objs _ (subLookup_genOnly gen root ⟨[], 0⟩ hgen0))
  have hcov : ∀ x ∈ objs.flatMap occIds,
      (((substitute_uuids objs root gen).state).map.lookup x).isSome = true :=
    fun x hx => extends_isSome hextfin x
      (processList_covers gen objs (subLookup gen root ⟨[], 0⟩).2 x hx)
  have hmgen : ∀ x ∈ objs.flatMap occIds,
      ∃ n, mapOf (substitute_uuids objs root gen).state x = gen n :=
    fun x hx => mapOf_gen_of_isSome hgenfin (hcov x hx)
  have hmslash : ∀ x ∈ objs.flatMap occIds,
      '/' ∉ (mapOf (substitute_uuids objs root gen).state x).data := by
    intro x hx
    obtain ⟨n, hn⟩ := hmgen x hx
    rw [hn]
    exact hslash n
  refine ⟨hobjs, hroot, ?_, ?_⟩
  · intro x hx
    rw [hobjs] at hx
    obtain ⟨o', ho', hxo'⟩ := List.mem_flatMap.mp hx
    obtain ⟨o, ho, rfl⟩ := List.mem_map.mp ho'
    have hmo : ∀ y ∈ occIds o,
        '/' ∉ (mapOf (substitute_uuids objs root gen).state y).data :=
      fun y hy => hmslash y (List.mem_flatMap.mpr ⟨o, ho, hy⟩)
    rw [occIds_rewriteObj _ o hmo] at hxo'
    obtain ⟨y, hy, rfl⟩ := List.mem_map.mp hxo'
    obtain ⟨n, hn⟩ := hmgen y (List.mem_flatMap.mpr ⟨o, ho, hy⟩)
    rw [hn]
    exact hfresh n
  · have hself := subLookup_self gen root
      (processList gen objs (subLookup gen root ⟨[], 0⟩).2).2
    obtain ⟨n, hn⟩ := hgenfin (root, (substitute_uuids objs root gen).newRoot)
      (lookup_mem _ root _ hself)
    rw [show (root, (substitute_uuids objs root gen).newRoot).2 =
      (substitute_uuids objs root gen).newRoot from rfl] at hn
    rw [hn]
    exact hfresh n

/-- C1 amended: `substitute_uuids` is not pure — it rewrites the object
dicts in place and returns only the new root identifier.  Whenever the
input list contains an object and the generated identifiers avoid the
old ones, the post-call contents of the input list differ from its
pre-call contents. -/
theorem C1_substitute_mutates (objs : List Obj) (root : String) (gen : Nat → String)
    (o : Obj) (ho : o ∈ objs) (hfresh : ∀ n, gen n ∉ oldIds objs root) :
    (substitute_uuids objs root gen).objs ≠ objs := by
  intro heq
  have hextfin : Extends (processList gen objs (subLookup gen root ⟨[], 0⟩).2).2
      (subLookup gen root (processList gen objs (subLookup gen root ⟨[], 0⟩).2).2).2 :=
    subLookup_extends gen root _
  have hobjs : (substitute_uuids objs root gen).objs =
      objs.map (rewriteObj (mapOf (substitute_uuids objs root gen).state)) :=
    processList_stable gen objs (subLookup gen root ⟨[], 0⟩).2 _ hextfin
  rw [hobjs] at heq
  have hself := map_eq_self_mem objs _ heq o ho
  have hid : mapOf (substitute_uuids objs root gen).state o.id = o.id :=
    congrArg Obj.id hself
  have hgen0 : GenOnly gen (⟨[], 0⟩ : Subst) := fun p hp => absurd hp (by simp)
  have hgenfin : GenOnly gen (substitute_uuids objs root gen).state :=
    subLookup_genOnly gen root _
      (processList_genOnly gen objs _ (subLookup_genOnly gen root ⟨[], 0⟩ hgen0))
  have hmemid : o.id ∈ objs.flatMap occIds :=
    List.mem_flatMap.mpr ⟨o, ho, List.mem_cons_self _ _⟩
  have hcov : (((substitute_uuids objs root gen).state).map.lookup o.id).isSome = true :=
    extends_isSome hextfin o.id
      (processList_covers gen objs (subLookup gen root ⟨[], 0⟩).2 o.id hmemid)
  obtain ⟨n, hn⟩ := mapOf_gen_of_isSome hgenfin hcov
  rw [hn] at hid
  refine hfresh n ?_
  rw [hid]
  exact List.mem_cons_of_mem _ hmemid

/-! ### Concrete substitution inputs -/

/-- A deterministic stand-in for the `uuid4` stream: `N`, `Nx`, `Nxx`, … -/
def genX (n : Nat) : String := String.mk ('N' :: List.replicate n 'x')

/-- A one-object design: a single group `G1`. -/
def objsC1 : List Obj := [⟨"G1", none, "group", "grp", none⟩]

/-- The two-object design of scenario D: root group `G1` and dataset
`D1` hard-linked under it (flat-format parent link `_pid`). -/
def objsD : List Obj :=
  [⟨"G1", none, "group", "grp", none⟩,
   ⟨"D1", some "G1", "dataset", "data", none⟩]

theorem genX_ne (n : Nat) (s : String) (hs : s.data.head? ≠ some 'N') : genX n ≠ s := by
  intro h
  apply hs
  rw [← h]
  rfl

theorem genX_fresh_objsC1 : ∀ n, genX n ∉ oldIds objsC1 "G1" := by
  intro n hn
  have holds : oldIds objsC1 "G1" = ["G1", "G1"] := rfl
  rw [holds] at hn
  have h2 : genX n = "G1" ∨ genX n = "G1" := by simpa using hn
  rcases h2 with h | h <;> exact genX_ne n "G1" (by decide) h

theorem genX_fresh_objsD : ∀ n, genX n ∉ oldIds objsD "G1" := by
  intro n hn
  have holds : oldIds objsD "G1" = ["G1", "G1", "D1", "G1"] := rfl
  rw [holds] at hn
  have h2 : genX n = "G1" ∨ genX n = "D1" ∨ genX n = "G1" := by
    simpa using hn
  rcases h2 with h | h | h
  · exact genX_ne n "G1" (by decide) h
  · exact genX_ne n "D1" (by decide) h
  · exact genX_ne n "G1" (by decide) h

theorem genX_slash_free : ∀ n, '/' ∉ (genX n).data := by
  intro n hn
  rcases List.mem_cons.mp hn with h | h
  · exact absurd h (by decide)
  · have := List.eq_of_mem_replicate h
    exact absurd this (by decide)

/-- C1 counterexample: `substitute_uuids` mutates its input — on a
one-object list the post-call contents of the object list differ from
the pre-call contents (the object's `id` has been replaced), refuting
"does not mutate its inputs". -/
theorem C1_counterexample :
    (substitute_uuids objsC1 "G1" genX).objs ≠ objsC1 := by decide

/-- Witness for C1 amended at the two-object design of scenario D. -/
theorem C1_substitute_mutates_witness :
    (substitute_uuids objsD "G1" genX).objs ≠ objsD :=
  C1_substitute_mutates objsD "G1" genX ⟨"G1", none, "group", "grp", none⟩
    (List.mem_cons_self _ _) genX_fresh_objsD

/-- Witness for C2 at the two-object design of scenario D: the returned
root is the mapping's value at `G1`, and neither `G1` nor `D1` occurs at
any identifier position of the output, the returned root included. -/
theorem C2_witness :
    ((substitute_uuids objsD "G1" genX).newRoot =
      mapOf (substitute_uuids objsD "G1" genX).state "G1") ∧
    "G1" ∉ (substitute_uuids objsD "G1" genX).objs.flatMap occIds ∧
    "D1" ∉ (substitute_uuids objsD "G1" genX).objs.flatMap occIds ∧
    (substitute_uuids objsD "G1" genX).newRoot ∉ oldIds objsD "G1" := by
  have h := C2_substitute_consistent objsD "G1" genX genX_fresh_objsD genX_slash_free
  refine ⟨h.2.1, ?_, ?_, h.2.2.2⟩
  · intro hmem
    exact h.2.2.1 "G1" hmem (List.mem_cons_self _ _)
  · intro hmem
    exact h.2.2.1 "D1" hmem (by decide)

end H5
